import Mathlib

/-!
# Verification of the backtest/live trading kernel contingency semantics

Shallow embedding of the trading kernel described in `spec.md`, checked
against the concrete scenarios pinned by the unit tests under
`src/tests/unit_tests`.  The kernel implementation itself is not part of
the source excerpt (only its tests and examples are), so the operations
below are modelled from the specification and validated against the
literal inputs and expected outputs of the tests.

Prices are fixed-precision decimals scaled to integers (ETHUSD prices
carry one decimal, so 3090.2 is represented as 30902); quantities carry
three decimals (10.000 is 10000).  All arithmetic is exact, as the spec
requires of Price/Quantity values.
-/

/-- Order side, spec section 3: side of an order, BUY or SELL. -/
inductive OrderSide where
  | buy
  | sell
deriving DecidableEq, Repr

/-- The opposite side, used to build stop-loss / take-profit children. -/
def OrderSide.opposite : OrderSide → OrderSide
  | .buy => .sell
  | .sell => .buy

/-- Order types exercised by the contingency tests (spec section 3). -/
inductive OrderType where
  | market
  | limit
  | stopMarket
deriving DecidableEq, Repr

/-- Order lifecycle statuses from the state machine of spec section 4.6.
`partFilled` is the PARTIALLY_FILLED status. -/
inductive OrderStatus where
  | submitted
  | accepted
  | rejected
  | pendingUpdate
  | pendingCancel
  | triggered
  | canceled
  | expired
  | partFilled
  | filled
  | denied
deriving DecidableEq, Repr

/-- An order resting at (or terminal on) the simulated exchange.
`price` holds the limit price of a LIMIT order and the trigger price of
a STOP_MARKET order.  `parentId` is the OTO link to the bracket entry;
`linkedIds` are the OCO peers (spec section 4.5). -/
structure Order where
  id : Nat
  side : OrderSide
  otype : OrderType
  quantity : Nat
  filledQty : Nat
  price : Int
  postOnly : Bool
  reduceOnly : Bool
  status : OrderStatus
  parentId : Option Nat
  linkedIds : List Nat
deriving DecidableEq, Repr

/-- Leaves quantity; the spec invariant is `filled + leaves == quantity`. -/
def Order.leavesQty (o : Order) : Nat := o.quantity - o.filledQty

/-- A NETTING position for the single instrument of the venue (spec
section 3).  `netQty` is signed (long positive); the average entry price
is the exact fraction `entrySum / entryQty`. -/
structure Position where
  netQty : Int
  entrySum : Int
  entryQty : Nat
deriving DecidableEq, Repr

/-- A QuoteTick: top-of-book bid/ask with sizes (spec section 3). -/
structure QuoteTick where
  bid : Int
  ask : Int
  bidSize : Nat
  askSize : Nat
deriving DecidableEq, Repr

/-- The simulated exchange state for one instrument under NETTING OMS:
the order store, the (single) position, the current top of book, and the
next client order id. -/
structure ExchangeState where
  orders : List Order
  position : Option Position
  bid : Int
  ask : Int
  bidSize : Nat
  askSize : Nat
  nextId : Nat
deriving DecidableEq, Repr

/-- An order is open at the exchange (working in the book) when it is
ACCEPTED or PARTIALLY_FILLED. -/
def isOpenStatus : OrderStatus → Bool
  | .accepted => true
  | .partFilled => true
  | _ => false

/-- Look an order up by client order id. -/
def findOrder (s : ExchangeState) (oid : Nat) : Option Order :=
  s.orders.find? (fun o => o.id == oid)

/-- The venue has a position with nonzero net quantity. -/
def positionOpen (s : ExchangeState) : Bool :=
  match s.position with
  | some p => p.netQty != 0
  | none => false

/-- The venue has a position that has returned to zero net quantity
(fully closed). -/
def positionClosed (s : ExchangeState) : Bool :=
  match s.position with
  | some p => p.netQty == 0
  | none => false

/-- Open quantity of the position (absolute net quantity). -/
def openQtyNat (s : ExchangeState) : Nat :=
  match s.position with
  | some p => p.netQty.natAbs
  | none => 0

/-- Number of open positions in the cache (0 or 1 under NETTING with a
single instrument). -/
def openPositionCount (s : ExchangeState) : Nat :=
  match s.position with
  | some p => if p.netQty = 0 then 0 else 1
  | none => 0

/-- The exchange's open (working) orders. -/
def getOpenOrders (s : ExchangeState) : List Order :=
  s.orders.filter (fun o => isOpenStatus o.status)

/-- Apply a fill of `q` units to an order record: filled quantity grows,
status becomes FILLED when the whole quantity is done, else
PARTIALLY_FILLED. -/
def fillOrderRec (q : Nat) (o : Order) : Order :=
  { o with
    filledQty := o.filledQty + q
    status := if o.quantity ≤ o.filledQty + q then .filled else .partFilled }

/-- Update the order store with a fill against order `oid`. -/
def applyFillOrders (oid : Nat) (q : Nat) (orders : List Order) : List Order :=
  orders.map fun o => if o.id == oid then fillOrderRec q o else o

/-- Update the NETTING position with a signed fill.  Opening fills
accumulate into the volume-weighted average entry price sums; reducing
fills leave the average entry price unchanged (spec sections 3, 4.5). -/
def applyFillPosition (side : OrderSide) (q : Nat) (px : Int) :
    Option Position → Option Position
  | none =>
    some { netQty := (match side with | .buy => (q : Int) | .sell => -(q : Int))
           entrySum := px * (q : Int), entryQty := q }
  | some p =>
    let d : Int := match side with | .buy => (q : Int) | .sell => -(q : Int)
    if p.netQty = 0 ∨ (0 < p.netQty ∧ side = .buy) ∨ (p.netQty < 0 ∧ side = .sell) then
      some { netQty := p.netQty + d, entrySum := p.entrySum + px * (q : Int)
             entryQty := p.entryQty + q }
    else
      some { netQty := p.netQty + d, entrySum := p.entrySum, entryQty := p.entryQty }

/-- OTO resolution step on an entry fill: a SUBMITTED child of the filled
parent becomes ACCEPTED (spec section 4.5: entry FILLED, children
transit from SUBMITTED to ACCEPTED and become active in the book). -/
def acceptChild (eid : Nat) (c : Order) : Order :=
  if c.parentId == some eid && c.status == .submitted then { c with status := .accepted } else c

/-- Modelled from the spec: when an order becomes FILLED its SUBMITTED
OTO children are accepted into the book. -/
def otoAcceptChildren (oid : Nat) (s : ExchangeState) : ExchangeState :=
  match findOrder s oid with
  | some o =>
    if o.status == .filled then { s with orders := s.orders.map (acceptChild oid) } else s
  | none => s

/-- OCO resolution step: an open OCO peer of a filled order is canceled. -/
def cancelPeer (linked : List Nat) (c : Order) : Order :=
  if linked.contains c.id && isOpenStatus c.status then { c with status := .canceled } else c

/-- Modelled from the spec: either OCO child FILLED means the peer is
CANCELED atomically in the same processing step. -/
def ocoCancelPeers (oid : Nat) (s : ExchangeState) : ExchangeState :=
  match findOrder s oid with
  | some o =>
    if o.status == .filled then { s with orders := s.orders.map (cancelPeer o.linkedIds) } else s
  | none => s

/-- Cancel an open contingent (bracket child) order. -/
def cancelChild (c : Order) : Order :=
  if c.parentId.isSome && isOpenStatus c.status then { c with status := .canceled } else c

/-- Resize an open contingent order so that its leaves quantity equals
the position's open quantity. -/
def adjustChild (openQ : Nat) (c : Order) : Order :=
  if c.parentId.isSome && isOpenStatus c.status then
    { c with quantity := c.filledQty + openQ } else c

/-- Modelled from the spec: the position fully closed by any means
cancels both OCO peers; the position partially reduced by any means
resizes the contingent children to match the new open quantity (spec
section 4.5). -/
def positionAdjustChildren (s : ExchangeState) : ExchangeState :=
  match s.position with
  | some p =>
    if p.netQty = 0 then { s with orders := s.orders.map cancelChild }
    else { s with orders := s.orders.map (adjustChild p.netQty.natAbs) }
  | none => s

/-- Contingency resolution run after every fill, in one processing step:
OTO child acceptance, OCO peer cancelation, then position-driven
cancel/resize of the bracket children. -/
def resolveContingencies (oid : Nat) (s : ExchangeState) : ExchangeState :=
  positionAdjustChildren (ocoCancelPeers oid (otoAcceptChildren oid s))

/-- Modelled from the spec: apply a fill of `q` at price `px` against
order `oid`: update the order, update the position, then resolve the
OCO/OTO contingencies in the same processing step. -/
def applyFill (oid : Nat) (q : Nat) (px : Int) (s : ExchangeState) : ExchangeState :=
  match findOrder s oid with
  | some o =>
    resolveContingencies oid
      { s with orders := applyFillOrders oid q s.orders
               position := applyFillPosition o.side q px s.position }
  | none => s

/-- Modelled from the spec: match a resting order against a new top of
book.  A limit order fills when the reference side touches its price; a
stop-market order triggers and fills when the reference side touches its
trigger price.  Returns the fill quantity and price, or `none`. -/
def tryMatch (t : QuoteTick) (o : Order) : Option (Nat × Int) :=
  if isOpenStatus o.status then
    match o.otype, o.side with
    | .limit, .buy =>
      if t.ask ≤ o.price then
        let q := min o.leavesQty t.askSize
        if q == 0 then none else some (q, t.ask)
      else none
    | .limit, .sell =>
      if o.price ≤ t.bid then
        let q := min o.leavesQty t.bidSize
        if q == 0 then none else some (q, t.bid)
      else none
    | .stopMarket, .buy =>
      if o.price ≤ t.ask then
        let q := min o.leavesQty t.askSize
        if q == 0 then none else some (q, t.ask)
      else none
    | .stopMarket, .sell =>
      if t.bid ≤ o.price then
        let q := min o.leavesQty t.bidSize
        if q == 0 then none else some (q, t.bid)
      else none
    | .market, _ => none
  else none

/-- One matching step of the quote-tick loop for the order id `oid`. -/
def matchStep (t : QuoteTick) (s : ExchangeState) (oid : Nat) : ExchangeState :=
  match findOrder s oid with
  | some o =>
    match tryMatch t o with
    | some r => applyFill oid r.1 r.2 s
    | none => s
  | none => s

/-- Install the new top of book from a quote tick. -/
def setBook (t : QuoteTick) (s : ExchangeState) : ExchangeState :=
  { s with bid := t.bid, ask := t.ask, bidSize := t.bidSize, askSize := t.askSize }

/-- Modelled from the spec: `process_quote_tick` installs the new top of
book and then evaluates every working order against it in price-time
(id) order, resolving contingencies after each fill. -/
def processQuoteTick (t : QuoteTick) (s : ExchangeState) : ExchangeState :=
  (s.orders.map (fun o => o.id)).foldl (matchStep t) (setBook t s)

/-- Set the status of order `oid`. -/
def setStatusFn (oid : Nat) (st : OrderStatus) (o : Order) : Order :=
  if o.id == oid then { o with status := st } else o

/-- Set the status of order `oid` in the store. -/
def setStatus (oid : Nat) (st : OrderStatus) (s : ExchangeState) : ExchangeState :=
  { s with orders := s.orders.map (setStatusFn oid st) }

/-- Modelled from the spec: execute a marketable order of `qty` units
against the current book; fills up to the opposing size, cancels the
residual (NO_LIQUIDITY for an unfilled market order, spec section 4.4). -/
def sideAvail (side : OrderSide) (s : ExchangeState) : Nat :=
  match side with
  | .buy => s.askSize
  | .sell => s.bidSize

/-- The taker price for a marketable order: the opposing top of book. -/
def sidePx (side : OrderSide) (s : ExchangeState) : Int :=
  match side with
  | .buy => s.ask
  | .sell => s.bid

def execMarketFill (oid : Nat) (side : OrderSide) (qty : Nat) (s : ExchangeState) :
    ExchangeState :=
  if min qty (sideAvail side s) == 0 then setStatus oid .canceled s
  else if min qty (sideAvail side s) < qty then
    setStatus oid .canceled (applyFill oid (min qty (sideAvail side s)) (sidePx side s) s)
  else applyFill oid (min qty (sideAvail side s)) (sidePx side s) s

/-- Build an order record. -/
def mkOrder (oid : Nat) (side : OrderSide) (ot : OrderType) (qty : Nat) (px : Int)
    (post reduce : Bool) (parent : Option Nat) (linked : List Nat) (st : OrderStatus) :
    Order :=
  { id := oid, side := side, otype := ot, quantity := qty, filledQty := 0, price := px
    postOnly := post, reduceOnly := reduce, status := st, parentId := parent
    linkedIds := linked }

/-- Modelled from the spec: submit a plain MARKET order (used for the
reduce order and for `close_position`) and apply it immediately (zero
latency model, as configured by the tests). -/
def submitMarketOrder (side : OrderSide) (qty : Nat) (reduce : Bool) (s : ExchangeState) :
    ExchangeState :=
  let oid := s.nextId
  let o := mkOrder oid side .market qty 0 false reduce none [] .submitted
  execMarketFill oid side qty { s with orders := s.orders ++ [o], nextId := oid + 1 }

/-- Entry terminal and not filled: reject the still-SUBMITTED bracket
children (spec section 4.5: entry REJECTED or CANCELED means children
are immediately REJECTED/CANCELED). -/
def rejectChild (eid : Nat) (c : Order) : Order :=
  if c.parentId == some eid && c.status == .submitted then { c with status := .rejected } else c

/-- Reject held children when the bracket entry died without filling. -/
def rejectChildrenIfEntryDead (eid : Nat) (s : ExchangeState) : ExchangeState :=
  match findOrder s eid with
  | some en =>
    if en.status == .canceled || en.status == .rejected then
      { s with orders := s.orders.map (rejectChild eid) }
    else s
  | none => s

/-- Modelled from the spec: submit a bracket with a MARKET entry.  The
triple `(entry, stop_loss, take_profit)` is linked entry-to-children by
OTO and child-to-child by OCO; the entry executes immediately under the
zero-latency model. -/
def submitBracketMarket (side : OrderSide) (qty : Nat) (slTrigger tpPrice : Int)
    (s : ExchangeState) : ExchangeState :=
  let eid := s.nextId
  let en := mkOrder eid side .market qty 0 false false none [] .submitted
  let sl := mkOrder (eid + 1) side.opposite .stopMarket qty slTrigger false true
      (some eid) [eid + 2] .submitted
  let tp := mkOrder (eid + 2) side.opposite .limit qty tpPrice false true
      (some eid) [eid + 1] .submitted
  let s1 := { s with orders := s.orders ++ [en, sl, tp], nextId := eid + 3 }
  rejectChildrenIfEntryDead eid (execMarketFill eid side qty s1)

/-- Is a limit order at `px` marketable against the current book? -/
def marketableLimit (s : ExchangeState) (side : OrderSide) (px : Int) : Bool :=
  match side with
  | .buy => decide (s.ask ≤ px) && s.askSize != 0
  | .sell => decide (px ≤ s.bid) && s.bidSize != 0

/-- Modelled from the spec: submit a bracket with a LIMIT entry.  A
POST_ONLY marketable entry is rejected (POST_ONLY_WOULD_CROSS) together
with its children; a marketable entry fills as a taker and releases its
children; a non-marketable entry rests ACCEPTED with children held
SUBMITTED. -/
def submitBracketLimit (side : OrderSide) (qty : Nat) (entryPx slTrigger tpPrice : Int)
    (post : Bool) (s : ExchangeState) : ExchangeState :=
  if marketableLimit s side entryPx then
    if post then
      { s with
        orders := s.orders ++
          [mkOrder s.nextId side .limit qty entryPx post false none [] .rejected,
           mkOrder (s.nextId + 1) side.opposite .stopMarket qty slTrigger false true
             (some s.nextId) [s.nextId + 2] .rejected,
           mkOrder (s.nextId + 2) side.opposite .limit qty tpPrice false true
             (some s.nextId) [s.nextId + 1] .rejected]
        nextId := s.nextId + 3 }
    else
      rejectChildrenIfEntryDead s.nextId
        (execMarketFill s.nextId side qty
          { s with
            orders := s.orders ++
              [mkOrder s.nextId side .limit qty entryPx post false none [] .submitted,
               mkOrder (s.nextId + 1) side.opposite .stopMarket qty slTrigger false true
                 (some s.nextId) [s.nextId + 2] .submitted,
               mkOrder (s.nextId + 2) side.opposite .limit qty tpPrice false true
                 (some s.nextId) [s.nextId + 1] .submitted]
            nextId := s.nextId + 3 })
  else
    { s with
      orders := s.orders ++
        [mkOrder s.nextId side .limit qty entryPx post false none [] .accepted,
         mkOrder (s.nextId + 1) side.opposite .stopMarket qty slTrigger false true
           (some s.nextId) [s.nextId + 2] .submitted,
         mkOrder (s.nextId + 2) side.opposite .limit qty tpPrice false true
           (some s.nextId) [s.nextId + 1] .submitted]
      nextId := s.nextId + 3 }

/-- Modelled from the spec: `close_position` submits a reduce MARKET
order for the full open quantity; a FLAT position is terminal so the
call does nothing. -/
def closePosition (s : ExchangeState) : ExchangeState :=
  match s.position with
  | some p =>
    if p.netQty = 0 then s
    else submitMarketOrder (if 0 < p.netQty then .sell else .buy) p.netQty.natAbs true s
  | none => s

/-- Rewrite the quantity of the target order and of its OCO peers. -/
def rewriteQty (oid : Nat) (linked : List Nat) (q : Nat) (c : Order) : Order :=
  if c.id == oid || linked.contains c.id then { c with quantity := q } else c

/-- Modelled from the spec: a user modification of one OCO child's
quantity rewrites the peer's quantity to match (spec section 4.5). -/
def modifyOrder (oid : Nat) (q : Nat) (s : ExchangeState) : ExchangeState :=
  match findOrder s oid with
  | some o => { s with orders := s.orders.map (rewriteQty oid o.linkedIds q) }
  | none => s

/-- `process(ts)` of the exchange: with the zero-latency model of the
tests all commands were already applied on submission, so advancing the
clock changes nothing. -/
def processTime (s : ExchangeState) (_ts : Nat) : ExchangeState := s

/-- The portfolio is completely flat when no position is open. -/
def isCompletelyFlat (s : ExchangeState) : Bool := openPositionCount s == 0

/-- Status of an order by id, as observed through the cache. -/
def orderStatusOf (s : ExchangeState) (oid : Nat) : Option OrderStatus :=
  (findOrder s oid).map (fun o => o.status)

/-- Quantity of an order by id. -/
def orderQuantityOf (s : ExchangeState) (oid : Nat) : Option Nat :=
  (findOrder s oid).map (fun o => o.quantity)

/-- Leaves quantity of an order by id. -/
def orderLeavesOf (s : ExchangeState) (oid : Nat) : Option Nat :=
  (findOrder s oid).map (fun o => o.leavesQty)

/-- Price (limit or trigger) of an order by id. -/
def orderPriceOf (s : ExchangeState) (oid : Nat) : Option Int :=
  (findOrder s oid).map (fun o => o.price)

/-- The exact average entry price of the position, as the pair
(entrySum, entryQty) whose quotient is the volume-weighted average. -/
def avgEntryOf (s : ExchangeState) : Option (Int × Nat) :=
  s.position.map (fun p => (p.entrySum, p.entryQty))

/-- The venue with no orders, no position and an empty book. -/
def emptyExchange : ExchangeState :=
  { orders := [], position := none, bid := 0, ask := 0, bidSize := 0, askSize := 0
    nextId := 1 }

/-- The ETHUSD quote of the contingency tests: bid 3090.2 / ask 3090.5,
sizes 15.100. -/
def ethTick1 : QuoteTick := { bid := 30902, ask := 30905, bidSize := 15100, askSize := 15100 }

/-- The venue after processing `ethTick1`. -/
def ethMarketState : ExchangeState := processQuoteTick ethTick1 emptyExchange

/-- Scenario S1 / test `test_submit_bracket_market_buy_accepts_sl_and_tp`:
bracket MARKET BUY of 10.000 with SL 3050.0 and TP 3150.0, then
`process(0)`. -/
def bracketMarketState : ExchangeState :=
  processTime (submitBracketMarket .buy 10000 30500 31500 ethMarketState) 0

/-- Test `test_submit_bracket_limit_buy_fills_then_triggers_sl_and_tp`:
bracket LIMIT BUY at 3100.0 (marketable) with SL 3050.0 / TP 3150.0. -/
def bracketLimitFilledState : ExchangeState :=
  processTime (submitBracketLimit .buy 10000 31000 30500 31500 false ethMarketState) 0

/-- The tick that fills the take profit in full: bid 3150.0 / ask 3151.0,
sizes 10.000. -/
def ethTick2Full : QuoteTick := { bid := 31500, ask := 31510, bidSize := 10000, askSize := 10000 }

/-- The tick with only 5.000 available at the take-profit price. -/
def ethTick2Partial : QuoteTick :=
  { bid := 31500, ask := 31510, bidSize := 5000, askSize := 5100 }

/-- Test `test_filling_bracket_tp_cancels_sl_order`: the full-size tick
fills the TP and the same processing step cancels the SL. -/
def tpFilledState : ExchangeState := processQuoteTick ethTick2Full bracketLimitFilledState

/-- Test `test_partial_fill_bracket_tp_updates_sl_order`: the 5.000-size
tick partially fills the TP and resizes the SL. -/
def tpPartialState : ExchangeState := processQuoteTick ethTick2Partial bracketLimitFilledState

/-- Test `test_closing_position_cancels_bracket_ocos`: close the bracket
position explicitly. -/
def closedBracketState : ExchangeState := processTime (closePosition bracketMarketState) 0

/-- Test `test_partially_filling_position_updates_bracket_ocos`: a
separate reduce MARKET SELL of 5.000 against the bracket position. -/
def reducedBracketState : ExchangeState :=
  processTime (submitMarketOrder .sell 5000 true bracketMarketState) 0

/-- Test `test_modifying_bracket_tp_updates_sl_order`: the user modifies
the SL quantity to 5.000. -/
def modifiedBracketState : ExchangeState := processTime (modifyOrder 2 5000 bracketMarketState) 0

/-- Test `test_reject_bracket_entry_then_rejects_sl_and_tp`: post-only
LIMIT SELL entry at 3050.0 inside the market. -/
def rejectedBracketState : ExchangeState :=
  processTime (submitBracketLimit .sell 10000 30500 31500 30000 true ethMarketState) 0

/-- Test `test_submit_bracket_limit_buy_has_sl_tp_pending`: LIMIT BUY
entry at 3090.0, below the ask, rests. -/
def pendingBracketBuyState : ExchangeState :=
  processTime (submitBracketLimit .buy 10000 30900 30500 31500 false ethMarketState) 0

/-- Test `test_submit_bracket_limit_sell_has_sl_tp_pending`: LIMIT SELL
entry at 3100.0, above the bid, rests. -/
def pendingBracketSellState : ExchangeState :=
  processTime (submitBracketLimit .sell 10000 31000 31500 30500 false ethMarketState) 0

/-! ## Invariants of the contingency machinery

List-level predicates about the order store, and the state-level
invariants from spec section 8 that the claims quantify over. -/

/-- The statuses a bracket child can carry once its entry has filled
(spec section 8, invariant 5). -/
def childTerminalOk (st : OrderStatus) : Prop :=
  st = .accepted ∨ st = .partFilled ∨ st = .canceled ∨ st = .filled

instance : DecidablePred childTerminalOk := fun st => by
  unfold childTerminalOk; infer_instance

/-- Every open order in the store is a bracket child, except possibly
the order `oid` currently being processed. -/
def OpenX (oid : Nat) (l : List Order) : Prop :=
  ∀ o ∈ l, o.id ≠ oid → isOpenStatus o.status = true → o.parentId.isSome = true

/-- Every open order in the store is a bracket child (spec section 8,
invariant 5 for a bracket whose entry is terminal). -/
def OpenImpliesChild (s : ExchangeState) : Prop :=
  ∀ o ∈ s.orders, isOpenStatus o.status = true → o.parentId.isSome = true

/-- Every bracket child carries an admissible post-entry-fill status. -/
def ChildOkL (l : List Order) : Prop :=
  ∀ o ∈ l, o.parentId.isSome = true → childTerminalOk o.status

/-- State-level version of `ChildOkL`. -/
def ChildStatusOk (s : ExchangeState) : Prop := ChildOkL s.orders

/-- Every bracket child is no longer working. -/
def ChildrenDoneL (l : List Order) : Prop :=
  ∀ o ∈ l, o.parentId.isSome = true → isOpenStatus o.status = false

/-- Spec section 4.5: position fully closed means both OCO peers have
been dealt with — no bracket child is still working. -/
def ClosedChildrenDone (s : ExchangeState) : Prop :=
  positionClosed s = true → ChildrenDoneL s.orders

/-- Every working bracket child has leaves quantity `n`. -/
def LeavesOkL (n : Nat) (l : List Order) : Prop :=
  ∀ o ∈ l, o.parentId.isSome = true → isOpenStatus o.status = true →
    o.quantity = o.filledQty + n

/-- Spec section 8, invariant 6: for OCO peers linked to an open
position, the child's (leaves) quantity equals the position's open
quantity. -/
def OcoLeavesMatch (s : ExchangeState) : Prop :=
  positionOpen s = true → LeavesOkL (openQtyNat s) s.orders

/-- Client order ids are unique and below the id counter. -/
def IdsOk (s : ExchangeState) : Prop :=
  (s.orders.map (fun o => o.id)).Nodup ∧ ∀ o ∈ s.orders, o.id < s.nextId

/-- The conjunction of the reachable-state invariants used by the
bracket claims. -/
def ExchangeInv (s : ExchangeState) : Prop :=
  OpenImpliesChild s ∧ ChildStatusOk s ∧ ClosedChildrenDone s ∧ OcoLeavesMatch s ∧ IdsOk s

theorem findOrder_mem {s : ExchangeState} {oid : Nat} {o : Order}
    (h : findOrder s oid = some o) : o ∈ s.orders :=
  List.mem_of_find?_eq_some h

theorem findOrder_id {s : ExchangeState} {oid : Nat} {o : Order}
    (h : findOrder s oid = some o) : o.id = oid := by
  have h2 := List.find?_some h
  simpa using h2

theorem nodup_id_unique {l : List Order} (h : (l.map (fun o => o.id)).Nodup)
    {a b : Order} (ha : a ∈ l) (hb : b ∈ l) (hab : a.id = b.id) : a = b := by
  induction l with
  | nil => cases ha
  | cons x xs ih =>
    simp only [List.map_cons, List.nodup_cons] at h
    rcases List.mem_cons.mp ha with rfl | ha' <;> rcases List.mem_cons.mp hb with rfl | hb'
    · rfl
    · exact absurd (List.mem_map.mpr ⟨b, hb', hab.symm⟩) h.1
    · exact absurd (List.mem_map.mpr ⟨a, ha', hab⟩) h.1
    · exact ih h.2 ha' hb'

theorem foldl_preserve {α β : Type} {P : α → Prop} {f : α → β → α}
    (hf : ∀ s b, P s → P (f s b)) :
    ∀ (l : List β) {s : α}, P s → P (List.foldl f s l) := by
  intro l
  induction l with
  | nil => intro s h; exact h
  | cons b bs ih => intro s h; exact ih (hf s b h)

/-! Case descriptions of the per-order rewriting functions. -/

theorem acceptChild_cases (eid : Nat) (a : Order) :
    acceptChild eid a = a ∨
      (a.parentId = some eid ∧ a.status = .submitted ∧
        acceptChild eid a = { a with status := .accepted }) := by
  unfold acceptChild
  split
  · next hc =>
    simp only [Bool.and_eq_true, beq_iff_eq] at hc
    exact Or.inr ⟨hc.1, hc.2, rfl⟩
  · exact Or.inl rfl

theorem cancelPeer_cases (L : List Nat) (a : Order) :
    cancelPeer L a = a ∨
      (isOpenStatus a.status = true ∧ cancelPeer L a = { a with status := .canceled }) := by
  unfold cancelPeer
  split
  · next hc =>
    simp only [Bool.and_eq_true] at hc
    exact Or.inr ⟨hc.2, rfl⟩
  · exact Or.inl rfl

theorem cancelChild_cases (a : Order) :
    cancelChild a = a ∨
      (a.parentId.isSome = true ∧ isOpenStatus a.status = true ∧
        cancelChild a = { a with status := .canceled }) := by
  unfold cancelChild
  split
  · next hc =>
    simp only [Bool.and_eq_true] at hc
    exact Or.inr ⟨hc.1, hc.2, rfl⟩
  · exact Or.inl rfl

theorem adjustChild_cases (n : Nat) (a : Order) :
    adjustChild n a = a ∨
      (a.parentId.isSome = true ∧ isOpenStatus a.status = true ∧
        adjustChild n a = { a with quantity := a.filledQty + n }) := by
  unfold adjustChild
  split
  · next hc =>
    simp only [Bool.and_eq_true] at hc
    exact Or.inr ⟨hc.1, hc.2, rfl⟩
  · exact Or.inl rfl

theorem rejectChild_cases (eid : Nat) (a : Order) :
    rejectChild eid a = a ∨
      (a.parentId = some eid ∧ a.status = .submitted ∧
        rejectChild eid a = { a with status := .rejected }) := by
  unfold rejectChild
  split
  · next hc =>
    simp only [Bool.and_eq_true, beq_iff_eq] at hc
    exact Or.inr ⟨hc.1, hc.2, rfl⟩
  · exact Or.inl rfl

theorem setStatusFn_cases (oid : Nat) (st : OrderStatus) (a : Order) :
    (a.id ≠ oid ∧ setStatusFn oid st a = a) ∨
      (a.id = oid ∧ setStatusFn oid st a = { a with status := st }) := by
  unfold setStatusFn
  split
  · next hc => exact Or.inr ⟨by simpa using hc, rfl⟩
  · next hc => exact Or.inl ⟨by simpa using hc, rfl⟩

/-! Lifting of the invariants through the per-order rewriting maps. -/

theorem openX_map_accept {k eid : Nat} {l : List Order} (h : OpenX k l) :
    OpenX k (l.map (acceptChild eid)) := by
  intro o ho hne hop
  rcases List.mem_map.mp ho with ⟨a, ha, rfl⟩
  rcases acceptChild_cases eid a with he | ⟨hp, _, he⟩
  · rw [he] at hne hop ⊢
    exact h a ha hne hop
  · rw [he]
    simp [hp]

theorem openX_map_cancelPeer {k : Nat} {L : List Nat} {l : List Order} (h : OpenX k l) :
    OpenX k (l.map (cancelPeer L)) := by
  intro o ho hne hop
  rcases List.mem_map.mp ho with ⟨a, ha, rfl⟩
  rcases cancelPeer_cases L a with he | ⟨_, he⟩
  · rw [he] at hne hop ⊢
    exact h a ha hne hop
  · rw [he] at hop
    simp [isOpenStatus] at hop

theorem openX_map_cancelChild {k : Nat} {l : List Order} (h : OpenX k l) :
    OpenX k (l.map cancelChild) := by
  intro o ho hne hop
  rcases List.mem_map.mp ho with ⟨a, ha, rfl⟩
  rcases cancelChild_cases a with he | ⟨_, _, he⟩
  · rw [he] at hne hop ⊢
    exact h a ha hne hop
  · rw [he] at hop
    simp [isOpenStatus] at hop

theorem openX_map_adjust {k n : Nat} {l : List Order} (h : OpenX k l) :
    OpenX k (l.map (adjustChild n)) := by
  intro o ho hne hop
  rcases List.mem_map.mp ho with ⟨a, ha, rfl⟩
  rcases adjustChild_cases n a with he | ⟨hp, _, he⟩
  · rw [he] at hne hop ⊢
    exact h a ha hne hop
  · rw [he]
    simpa using hp

theorem openX_applyFillOrders {k q : Nat} {l : List Order} (h : OpenX k l) :
    OpenX k (applyFillOrders k q l) := by
  intro o ho hne hop
  unfold applyFillOrders at ho
  rcases List.mem_map.mp ho with ⟨a, ha, rfl⟩
  by_cases hid : a.id = k
  · simp only [hid, beq_self_eq_true, if_true] at hne
    have : (fillOrderRec q a).id = a.id := by simp [fillOrderRec]
    exact absurd (this.trans hid) hne
  · simp only [beq_iff_eq, hid, if_false] at hne hop ⊢
    exact h a ha hne hop

theorem openX_map_setStatus {k oid : Nat} {st : OrderStatus} {l : List Order}
    (hst : isOpenStatus st = false) (h : OpenX k l) :
    OpenX k (l.map (setStatusFn oid st)) := by
  intro o ho hne hop
  rcases List.mem_map.mp ho with ⟨a, ha, rfl⟩
  rcases setStatusFn_cases oid st a with ⟨_, he⟩ | ⟨_, he⟩
  · rw [he] at hne hop ⊢
    exact h a ha hne hop
  · rw [he] at hop
    simp only at hop
    rw [hst] at hop
    cases hop

theorem childOk_map_accept {eid : Nat} {l : List Order} (h : ChildOkL l) :
    ChildOkL (l.map (acceptChild eid)) := by
  intro o ho hp
  rcases List.mem_map.mp ho with ⟨a, ha, rfl⟩
  rcases acceptChild_cases eid a with he | ⟨_, _, he⟩
  · rw [he] at hp ⊢
    exact h a ha hp
  · rw [he]
    exact Or.inl rfl

theorem childOk_map_cancelPeer {L : List Nat} {l : List Order} (h : ChildOkL l) :
    ChildOkL (l.map (cancelPeer L)) := by
  intro o ho hp
  rcases List.mem_map.mp ho with ⟨a, ha, rfl⟩
  rcases cancelPeer_cases L a with he | ⟨_, he⟩
  · rw [he] at hp ⊢
    exact h a ha hp
  · rw [he]
    exact Or.inr (Or.inr (Or.inl rfl))

theorem childOk_map_cancelChild {l : List Order} (h : ChildOkL l) :
    ChildOkL (l.map cancelChild) := by
  intro o ho hp
  rcases List.mem_map.mp ho with ⟨a, ha, rfl⟩
  rcases cancelChild_cases a with he | ⟨_, _, he⟩
  · rw [he] at hp ⊢
    exact h a ha hp
  · rw [he]
    exact Or.inr (Or.inr (Or.inl rfl))

theorem childOk_map_adjust {n : Nat} {l : List Order} (h : ChildOkL l) :
    ChildOkL (l.map (adjustChild n)) := by
  intro o ho hp
  rcases List.mem_map.mp ho with ⟨a, ha, rfl⟩
  rcases adjustChild_cases n a with he | ⟨_, _, he⟩
  · rw [he] at hp ⊢
    exact h a ha hp
  · rw [he] at hp ⊢
    exact h a ha hp

theorem childOk_applyFillOrders {k q : Nat} {l : List Order} (h : ChildOkL l) :
    ChildOkL (applyFillOrders k q l) := by
  intro o ho hp
  unfold applyFillOrders at ho
  rcases List.mem_map.mp ho with ⟨a, ha, rfl⟩
  by_cases hid : (a.id == k) = true
  · simp only [hid, if_true]
    unfold fillOrderRec
    split
    · exact Or.inr (Or.inr (Or.inr rfl))
    · exact Or.inr (Or.inl rfl)
  · simp only [hid, if_false] at hp ⊢
    exact h a ha hp

theorem childOk_map_setStatus_canceled {oid : Nat} {l : List Order} (h : ChildOkL l) :
    ChildOkL (l.map (setStatusFn oid .canceled)) := by
  intro o ho hp
  rcases List.mem_map.mp ho with ⟨a, ha, rfl⟩
  rcases setStatusFn_cases oid .canceled a with ⟨_, he⟩ | ⟨_, he⟩
  · rw [he] at hp ⊢
    exact h a ha hp
  · rw [he]
    exact Or.inr (Or.inr (Or.inl rfl))

theorem childrenDone_map_setStatus_canceled {oid : Nat} {l : List Order}
    (h : ChildrenDoneL l) : ChildrenDoneL (l.map (setStatusFn oid .canceled)) := by
  intro o ho hp
  rcases List.mem_map.mp ho with ⟨_, ha, rfl⟩
  rcases setStatusFn_cases oid .canceled _ with ⟨_, he⟩ | ⟨_, he⟩
  · rw [he] at hp ⊢
    exact h _ ha hp
  · rw [he]
    rfl

theorem leavesOk_map_setStatus_canceled {oid n : Nat} {l : List Order}
    (h : LeavesOkL n l) : LeavesOkL n (l.map (setStatusFn oid .canceled)) := by
  intro o ho hp hop
  rcases List.mem_map.mp ho with ⟨a, ha, rfl⟩
  rcases setStatusFn_cases oid .canceled a with ⟨_, he⟩ | ⟨_, he⟩
  · rw [he] at hp hop ⊢
    exact h a ha hp hop
  · rw [he] at hop
    simp [isOpenStatus] at hop

/-! State-level preservation of the invariants through the contingency
resolution and matching steps. -/

theorem openX_oto {k : Nat} (oid : Nat) (s : ExchangeState) (h : OpenX k s.orders) :
    OpenX k (otoAcceptChildren oid s).orders := by
  unfold otoAcceptChildren
  split
  · split
    · exact openX_map_accept h
    · exact h
  · exact h

theorem openX_oco {k : Nat} (oid : Nat) (s : ExchangeState) (h : OpenX k s.orders) :
    OpenX k (ocoCancelPeers oid s).orders := by
  unfold ocoCancelPeers
  split
  · split
    · exact openX_map_cancelPeer h
    · exact h
  · exact h

theorem openX_adjust {k : Nat} (s : ExchangeState) (h : OpenX k s.orders) :
    OpenX k (positionAdjustChildren s).orders := by
  unfold positionAdjustChildren
  split
  · split
    · exact openX_map_cancelChild h
    · exact openX_map_adjust h
  · exact h

theorem openX_resolve {k : Nat} (oid : Nat) (s : ExchangeState) (h : OpenX k s.orders) :
    OpenX k (resolveContingencies oid s).orders :=
  openX_adjust _ (openX_oco oid _ (openX_oto oid s h))

theorem childOk_oto (oid : Nat) (s : ExchangeState) (h : ChildOkL s.orders) :
    ChildOkL (otoAcceptChildren oid s).orders := by
  unfold otoAcceptChildren
  split
  · split
    · exact childOk_map_accept h
    · exact h
  · exact h

theorem childOk_oco (oid : Nat) (s : ExchangeState) (h : ChildOkL s.orders) :
    ChildOkL (ocoCancelPeers oid s).orders := by
  unfold ocoCancelPeers
  split
  · split
    · exact childOk_map_cancelPeer h
    · exact h
  · exact h

theorem childOk_adjust (s : ExchangeState) (h : ChildOkL s.orders) :
    ChildOkL (positionAdjustChildren s).orders := by
  unfold positionAdjustChildren
  split
  · split
    · exact childOk_map_cancelChild h
    · exact childOk_map_adjust h
  · exact h

theorem childOk_resolve (oid : Nat) (s : ExchangeState) (h : ChildOkL s.orders) :
    ChildOkL (resolveContingencies oid s).orders :=
  childOk_adjust _ (childOk_oco oid _ (childOk_oto oid s h))

theorem positionClosed_setOrders (s : ExchangeState) (l : List Order) :
    positionClosed { s with orders := l } = positionClosed s := rfl

theorem positionOpen_setOrders (s : ExchangeState) (l : List Order) :
    positionOpen { s with orders := l } = positionOpen s := rfl

theorem openQtyNat_setOrders (s : ExchangeState) (l : List Order) :
    openQtyNat { s with orders := l } = openQtyNat s := rfl

theorem positionClosed_eq {s : ExchangeState} {p : Position} (hp : s.position = some p) :
    positionClosed s = (p.netQty == 0) := by
  unfold positionClosed
  rw [hp]

theorem positionClosed_none {s : ExchangeState} (hp : s.position = none) :
    positionClosed s = false := by
  unfold positionClosed
  rw [hp]

theorem positionOpen_eq {s : ExchangeState} {p : Position} (hp : s.position = some p) :
    positionOpen s = (p.netQty != 0) := by
  unfold positionOpen
  rw [hp]

theorem positionOpen_none {s : ExchangeState} (hp : s.position = none) :
    positionOpen s = false := by
  unfold positionOpen
  rw [hp]

theorem openQtyNat_eq {s : ExchangeState} {p : Position} (hp : s.position = some p) :
    openQtyNat s = p.netQty.natAbs := by
  unfold openQtyNat
  rw [hp]

theorem cancelChild_parent (a : Order) : (cancelChild a).parentId = a.parentId := by
  unfold cancelChild
  split <;> rfl

theorem adjustChild_parent (n : Nat) (a : Order) :
    (adjustChild n a).parentId = a.parentId := by
  unfold adjustChild
  split <;> rfl

theorem adjust_closedDone (s : ExchangeState) :
    ClosedChildrenDone (positionAdjustChildren s) := by
  unfold positionAdjustChildren
  split
  · next p hp =>
    split
    · next hz =>
      intro _ o ho hpar
      rcases List.mem_map.mp ho with ⟨a, _, rfl⟩
      rw [cancelChild_parent] at hpar
      by_cases hc : (a.parentId.isSome && isOpenStatus a.status) = true
      · have he : cancelChild a = { a with status := .canceled } := by
          unfold cancelChild
          rw [if_pos hc]
        rw [he]
        rfl
      · have he : cancelChild a = a := by
          unfold cancelChild
          rw [if_neg hc]
        rw [he]
        simp only [Bool.and_eq_true, not_and, Bool.not_eq_true] at hc
        exact hc hpar
    · next hz =>
      intro hcl
      exfalso
      rw [positionClosed_setOrders, positionClosed_eq hp] at hcl
      simp at hcl
      exact hz hcl
  · next hp =>
    intro hcl
    exfalso
    rw [positionClosed_none (by exact hp)] at hcl
    cases hcl

theorem adjust_ocoLeaves (s : ExchangeState) :
    OcoLeavesMatch (positionAdjustChildren s) := by
  unfold positionAdjustChildren
  split
  · next p hp =>
    split
    · next hz =>
      intro hop
      exfalso
      rw [positionOpen_setOrders, positionOpen_eq hp] at hop
      simp [hz] at hop
    · next hz =>
      intro _ o ho hpar hopn
      rw [openQtyNat_setOrders, openQtyNat_eq hp]
      rcases List.mem_map.mp ho with ⟨a, _, rfl⟩
      by_cases hc : (a.parentId.isSome && isOpenStatus a.status) = true
      · have he : adjustChild p.netQty.natAbs a =
            { a with quantity := a.filledQty + p.netQty.natAbs } := by
          unfold adjustChild
          rw [if_pos hc]
        rw [he]
      · have he : adjustChild p.netQty.natAbs a = a := by
          unfold adjustChild
          rw [if_neg hc]
        rw [he] at hpar hopn
        simp only [Bool.and_eq_true, not_and, Bool.not_eq_true] at hc
        rw [hc hpar] at hopn
        cases hopn
  · next hp =>
    intro hop
    exfalso
    rw [positionOpen_none (by exact hp)] at hop
    cases hop

theorem resolve_closedDone (oid : Nat) (s : ExchangeState) :
    ClosedChildrenDone (resolveContingencies oid s) :=
  adjust_closedDone _

theorem resolve_ocoLeaves (oid : Nat) (s : ExchangeState) :
    OcoLeavesMatch (resolveContingencies oid s) :=
  adjust_ocoLeaves _

/-! Field preservation facts for the per-order rewriting functions. -/

theorem fillOrderRec_id (q : Nat) (a : Order) : (fillOrderRec q a).id = a.id := rfl

theorem fillOrderRec_parent (q : Nat) (a : Order) :
    (fillOrderRec q a).parentId = a.parentId := rfl

theorem acceptChild_id (e : Nat) (a : Order) : (acceptChild e a).id = a.id := by
  unfold acceptChild
  split <;> rfl

theorem acceptChild_parent (e : Nat) (a : Order) :
    (acceptChild e a).parentId = a.parentId := by
  unfold acceptChild
  split <;> rfl

theorem cancelPeer_id (L : List Nat) (a : Order) : (cancelPeer L a).id = a.id := by
  unfold cancelPeer
  split <;> rfl

theorem cancelPeer_parent (L : List Nat) (a : Order) :
    (cancelPeer L a).parentId = a.parentId := by
  unfold cancelPeer
  split <;> rfl

theorem cancelChild_id (a : Order) : (cancelChild a).id = a.id := by
  unfold cancelChild
  split <;> rfl

theorem adjustChild_id (n : Nat) (a : Order) : (adjustChild n a).id = a.id := by
  unfold adjustChild
  split <;> rfl

theorem setStatusFn_id (oid : Nat) (st : OrderStatus) (a : Order) :
    (setStatusFn oid st a).id = a.id := by
  unfold setStatusFn
  split <;> rfl

theorem setStatusFn_parent (oid : Nat) (st : OrderStatus) (a : Order) :
    (setStatusFn oid st a).parentId = a.parentId := by
  unfold setStatusFn
  split <;> rfl

theorem fillIf_id (oid q : Nat) (a : Order) :
    (if a.id == oid then fillOrderRec q a else a).id = a.id := by
  split <;> rfl

theorem fillIf_parent (oid q : Nat) (a : Order) :
    (if a.id == oid then fillOrderRec q a else a).parentId = a.parentId := by
  split <;> rfl

theorem acceptChild_filled {e : Nat} {a : Order} (h : a.status = .filled) :
    (acceptChild e a).status = .filled := by
  unfold acceptChild
  split
  · next hc =>
    rw [h] at hc
    simp at hc
  · exact h

theorem cancelPeer_filled {L : List Nat} {a : Order} (h : a.status = .filled) :
    (cancelPeer L a).status = .filled := by
  unfold cancelPeer
  split
  · next hc =>
    rw [h] at hc
    simp [isOpenStatus] at hc
  · exact h

theorem cancelChild_filled {a : Order} (h : a.status = .filled) :
    (cancelChild a).status = .filled := by
  unfold cancelChild
  split
  · next hc =>
    rw [h] at hc
    simp [isOpenStatus] at hc
  · exact h

theorem adjustChild_status (n : Nat) (a : Order) : (adjustChild n a).status = a.status := by
  unfold adjustChild
  split <;> rfl

/-! The matching step does not create, delete or re-link orders: the id
and parent-link structure of the store is preserved. -/

def SameIds (s s' : ExchangeState) : Prop :=
  s'.orders.map (fun o => o.id) = s.orders.map (fun o => o.id) ∧ s'.nextId = s.nextId

theorem sameIds_refl (s : ExchangeState) : SameIds s s := ⟨rfl, rfl⟩

theorem sameIds_trans {a b c : ExchangeState} (h1 : SameIds a b) (h2 : SameIds b c) :
    SameIds a c :=
  ⟨h2.1.trans h1.1, h2.2.trans h1.2⟩

theorem map_ids_eq (l : List Order) (f : Order → Order) (hf : ∀ a, (f a).id = a.id) :
    (l.map f).map (fun o => o.id) = l.map (fun o => o.id) := by
  rw [List.map_map]
  exact List.map_congr_left (fun a _ => hf a)

theorem sameIds_map (s : ExchangeState) (f : Order → Order) (hf : ∀ a, (f a).id = a.id) :
    SameIds s { s with orders := s.orders.map f } :=
  ⟨map_ids_eq s.orders f hf, rfl⟩

theorem sameIds_oto (oid : Nat) (s : ExchangeState) : SameIds s (otoAcceptChildren oid s) := by
  unfold otoAcceptChildren
  split
  · split
    · exact sameIds_map s _ (acceptChild_id oid)
    · exact sameIds_refl s
  · exact sameIds_refl s

theorem sameIds_oco (oid : Nat) (s : ExchangeState) : SameIds s (ocoCancelPeers oid s) := by
  unfold ocoCancelPeers
  split
  · split
    · exact sameIds_map s _ (cancelPeer_id _)
    · exact sameIds_refl s
  · exact sameIds_refl s

theorem sameIds_adjust (s : ExchangeState) : SameIds s (positionAdjustChildren s) := by
  unfold positionAdjustChildren
  split
  · split
    · exact sameIds_map s _ cancelChild_id
    · exact sameIds_map s _ (adjustChild_id _)
  · exact sameIds_refl s

theorem sameIds_resolve (oid : Nat) (s : ExchangeState) :
    SameIds s (resolveContingencies oid s) :=
  sameIds_trans (sameIds_trans (sameIds_oto oid s) (sameIds_oco oid _)) (sameIds_adjust _)

theorem sameIds_applyFill (oid q : Nat) (px : Int) (s : ExchangeState) :
    SameIds s (applyFill oid q px s) := by
  unfold applyFill
  split
  · refine sameIds_trans ?_ (sameIds_resolve oid _)
    exact ⟨map_ids_eq s.orders _ (fillIf_id oid q), rfl⟩
  · exact sameIds_refl s

theorem sameIds_setStatus (oid : Nat) (st : OrderStatus) (s : ExchangeState) :
    SameIds s (setStatus oid st s) :=
  sameIds_map s _ (setStatusFn_id oid st)

theorem idsOk_of_sameIds {s s' : ExchangeState} (h : SameIds s s') (hi : IdsOk s) :
    IdsOk s' := by
  constructor
  · rw [h.1]
    exact hi.1
  · intro o ho
    have hmem : o.id ∈ s'.orders.map (fun o => o.id) := List.mem_map_of_mem _ ho
    rw [h.1] at hmem
    rcases List.mem_map.mp hmem with ⟨a, ha, hid⟩
    rw [h.2, ← hid]
    exact hi.2 a ha

def IdParentFrom (l l' : List Order) : Prop :=
  ∀ o ∈ l', ∃ a ∈ l, o.id = a.id ∧ o.parentId = a.parentId

theorem idParentFrom_refl (l : List Order) : IdParentFrom l l :=
  fun o ho => ⟨o, ho, rfl, rfl⟩

theorem idParentFrom_trans {l m n : List Order} (h1 : IdParentFrom l m)
    (h2 : IdParentFrom m n) : IdParentFrom l n := by
  intro o ho
  rcases h2 o ho with ⟨b, hb, hid, hp⟩
  rcases h1 b hb with ⟨a, ha, hid2, hp2⟩
  exact ⟨a, ha, hid.trans hid2, hp.trans hp2⟩

theorem idParentFrom_map {l : List Order} (f : Order → Order)
    (hid : ∀ a, (f a).id = a.id) (hp : ∀ a, (f a).parentId = a.parentId) :
    IdParentFrom l (l.map f) := by
  intro o ho
  rcases List.mem_map.mp ho with ⟨a, ha, rfl⟩
  exact ⟨a, ha, hid a, hp a⟩

theorem idParentFrom_oto (oid : Nat) (s : ExchangeState) :
    IdParentFrom s.orders (otoAcceptChildren oid s).orders := by
  unfold otoAcceptChildren
  split
  · split
    · exact idParentFrom_map _ (acceptChild_id oid) (acceptChild_parent oid)
    · exact idParentFrom_refl _
  · exact idParentFrom_refl _

theorem idParentFrom_oco (oid : Nat) (s : ExchangeState) :
    IdParentFrom s.orders (ocoCancelPeers oid s).orders := by
  unfold ocoCancelPeers
  split
  · split
    · exact idParentFrom_map _ (cancelPeer_id _) (cancelPeer_parent _)
    · exact idParentFrom_refl _
  · exact idParentFrom_refl _

theorem idParentFrom_adjust (s : ExchangeState) :
    IdParentFrom s.orders (positionAdjustChildren s).orders := by
  unfold positionAdjustChildren
  split
  · split
    · exact idParentFrom_map _ cancelChild_id cancelChild_parent
    · exact idParentFrom_map _ (adjustChild_id _) (adjustChild_parent _)
  · exact idParentFrom_refl _

theorem idParentFrom_resolve (oid : Nat) (s : ExchangeState) :
    IdParentFrom s.orders (resolveContingencies oid s).orders :=
  idParentFrom_trans
    (idParentFrom_trans (idParentFrom_oto oid s) (idParentFrom_oco oid _))
    (idParentFrom_adjust _)

theorem idParentFrom_applyFill (oid q : Nat) (px : Int) (s : ExchangeState) :
    IdParentFrom s.orders (applyFill oid q px s).orders := by
  unfold applyFill
  split
  · exact idParentFrom_trans
      (idParentFrom_map _ (fillIf_id oid q) (fillIf_parent oid q))
      (idParentFrom_resolve oid _)
  · exact idParentFrom_refl _

/-! After a full fill of order `oid`, every order of that id is FILLED
and hence no longer working. -/

def AllFilledAt (oid : Nat) (l : List Order) : Prop :=
  ∀ o ∈ l, o.id = oid → o.status = .filled

theorem allFilled_map {oid : Nat} {l : List Order} (f : Order → Order)
    (hid : ∀ a, (f a).id = a.id)
    (hst : ∀ a, a.status = .filled → (f a).status = .filled)
    (h : AllFilledAt oid l) : AllFilledAt oid (l.map f) := by
  intro o ho hido
  rcases List.mem_map.mp ho with ⟨a, ha, rfl⟩
  exact hst a (h a ha ((hid a).symm.trans hido))

theorem allFilled_oto {oid k : Nat} {s : ExchangeState} (h : AllFilledAt oid s.orders) :
    AllFilledAt oid (otoAcceptChildren k s).orders := by
  unfold otoAcceptChildren
  split
  · split
    · exact allFilled_map _ (acceptChild_id k) (fun a ha => acceptChild_filled ha) h
    · exact h
  · exact h

theorem allFilled_oco {oid k : Nat} {s : ExchangeState} (h : AllFilledAt oid s.orders) :
    AllFilledAt oid (ocoCancelPeers k s).orders := by
  unfold ocoCancelPeers
  split
  · split
    · exact allFilled_map _ (cancelPeer_id _) (fun a ha => cancelPeer_filled ha) h
    · exact h
  · exact h

theorem allFilled_adjust {oid : Nat} {s : ExchangeState} (h : AllFilledAt oid s.orders) :
    AllFilledAt oid (positionAdjustChildren s).orders := by
  unfold positionAdjustChildren
  split
  · split
    · exact allFilled_map _ cancelChild_id (fun a ha => cancelChild_filled ha) h
    · exact allFilled_map _ (adjustChild_id _)
        (fun a ha => (adjustChild_status _ a).trans ha) h
  · exact h

theorem allFilled_resolve {oid k : Nat} {s : ExchangeState} (h : AllFilledAt oid s.orders) :
    AllFilledAt oid (resolveContingencies k s).orders :=
  allFilled_adjust (allFilled_oco (allFilled_oto h))

theorem applyFill_allFilled {oid q : Nat} {px : Int} {s : ExchangeState} {o : Order}
    (hN : (s.orders.map (fun o => o.id)).Nodup)
    (hfo : findOrder s oid = some o) (hq : o.quantity ≤ o.filledQty + q) :
    AllFilledAt oid (applyFill oid q px s).orders := by
  unfold applyFill
  rw [hfo]
  apply allFilled_resolve
  intro o' ho' hid
  unfold applyFillOrders at ho'
  rcases List.mem_map.mp ho' with ⟨a, ha, rfl⟩
  by_cases hida : (a.id == oid) = true
  · have haid : a.id = oid := by simpa using hida
    have haeq : a = o :=
      nodup_id_unique hN ha (findOrder_mem hfo) (haid.trans (findOrder_id hfo).symm)
    rw [if_pos hida]
    unfold fillOrderRec
    simp only
    rw [if_pos (haeq ▸ hq)]
  · rw [if_neg hida] at hid
    exact absurd hid (by simpa using hida)

/-! Preservation of the joint invariant by the matching loop. -/

theorem tryMatch_isOpen {t : QuoteTick} {o : Order} {r : Nat × Int}
    (h : tryMatch t o = some r) : isOpenStatus o.status = true := by
  unfold tryMatch at h
  by_cases hop : isOpenStatus o.status = true
  · exact hop
  · rw [if_neg hop] at h
    cases h

theorem applyFill_openX {k q : Nat} {px : Int} (s : ExchangeState) (h : OpenX k s.orders) :
    OpenX k (applyFill k q px s).orders := by
  unfold applyFill
  split
  · exact openX_resolve k _ (openX_applyFillOrders h)
  · exact h

theorem applyFill_childOk {k q : Nat} {px : Int} (s : ExchangeState) (h : ChildStatusOk s) :
    ChildStatusOk (applyFill k q px s) := by
  unfold applyFill
  split
  · exact childOk_resolve k _ (childOk_applyFillOrders h)
  · exact h

theorem applyFill_closedDone {k q : Nat} {px : Int} (s : ExchangeState)
    (h : ClosedChildrenDone s) : ClosedChildrenDone (applyFill k q px s) := by
  unfold applyFill
  split
  · exact resolve_closedDone k _
  · exact h

theorem applyFill_ocoLeaves {k q : Nat} {px : Int} (s : ExchangeState)
    (h : OcoLeavesMatch s) : OcoLeavesMatch (applyFill k q px s) := by
  unfold applyFill
  split
  · exact resolve_ocoLeaves k _
  · exact h

theorem matchStep_inv (t : QuoteTick) (s : ExchangeState) (oid : Nat) (h : ExchangeInv s) :
    ExchangeInv (matchStep t s oid) := by
  unfold matchStep
  split
  · next o hfo =>
    split
    · next r hr =>
      obtain ⟨hOpen, hChild, hDone, hLeaves, hIds⟩ := h
      have ho_mem := findOrder_mem hfo
      have ho_id := findOrder_id hfo
      have ho_par : o.parentId.isSome = true := hOpen o ho_mem (tryMatch_isOpen hr)
      refine ⟨?_, ?_, ?_, ?_, ?_⟩
      · have hX : OpenX oid s.orders := fun a ha _ hop => hOpen a ha hop
      
        have hX' : OpenX oid (applyFill oid r.1 r.2 s).orders := applyFill_openX s hX
        have hIP := idParentFrom_applyFill oid r.1 r.2 s
        intro o' ho' hop
        by_cases hid : o'.id = oid
        · rcases hIP o' ho' with ⟨a, ha, hida, hpa⟩
          have haeq : a = o :=
            nodup_id_unique hIds.1 ha ho_mem ((hida.symm.trans hid).trans ho_id.symm)
          rw [hpa, haeq]
          exact ho_par
        · exact hX' o' ho' hid hop
      · exact applyFill_childOk s hChild
      · exact applyFill_closedDone s hDone
      · exact applyFill_ocoLeaves s hLeaves
      · exact idsOk_of_sameIds (sameIds_applyFill oid r.1 r.2 s) hIds
    · exact h
  · exact h

theorem setBook_inv (t : QuoteTick) (s : ExchangeState) (h : ExchangeInv s) :
    ExchangeInv (setBook t s) :=
  h

theorem processQuoteTick_inv (t : QuoteTick) (s : ExchangeState) (h : ExchangeInv s) :
    ExchangeInv (processQuoteTick t s) := by
  unfold processQuoteTick
  exact foldl_preserve (fun s' oid h' => matchStep_inv t s' oid h') _ (setBook_inv t s h)

/-! Preservation of the joint invariant by order submission and
position closing. -/

theorem setStatus_canceled_open {oid : Nat} {s : ExchangeState} (h : OpenX oid s.orders) :
    OpenImpliesChild (setStatus oid .canceled s) := by
  intro o ho hop
  rcases List.mem_map.mp ho with ⟨a, ha, rfl⟩
  rcases setStatusFn_cases oid .canceled a with ⟨hne, he⟩ | ⟨_, he⟩
  · rw [he] at hop ⊢
    exact h a ha hne hop
  · rw [he] at hop
    simp [isOpenStatus] at hop

theorem setStatus_closedDone {oid : Nat} {st : OrderStatus} {s : ExchangeState}
    (hst : isOpenStatus st = false) (h : ClosedChildrenDone s) :
    ClosedChildrenDone (setStatus oid st s) := by
  intro hcl o ho hpar
  have hcl' : positionClosed s = true := hcl
  rcases List.mem_map.mp ho with ⟨a, ha, rfl⟩
  rcases setStatusFn_cases oid st a with ⟨_, he⟩ | ⟨_, he⟩
  · rw [he] at hpar ⊢
    exact h hcl' a ha hpar
  · rw [he]
    exact hst

theorem setStatus_ocoLeaves {oid : Nat} {st : OrderStatus} {s : ExchangeState}
    (hst : isOpenStatus st = false) (h : OcoLeavesMatch s) :
    OcoLeavesMatch (setStatus oid st s) := by
  intro hop o ho hpar hopn
  have hop' : positionOpen s = true := hop
  have hq : openQtyNat (setStatus oid st s) = openQtyNat s := rfl
  rw [hq]
  rcases List.mem_map.mp ho with ⟨a, ha, rfl⟩
  rcases setStatusFn_cases oid st a with ⟨_, he⟩ | ⟨_, he⟩
  · rw [he] at hpar hopn ⊢
    exact h hop' a ha hpar hopn
  · rw [he] at hopn
    simp [hst] at hopn

theorem setStatus_canceled_inv {oid : Nat} {s : ExchangeState}
    (hX : OpenX oid s.orders) (h2 : ChildStatusOk s) (h3 : ClosedChildrenDone s)
    (h4 : OcoLeavesMatch s) (h5 : IdsOk s) :
    ExchangeInv (setStatus oid .canceled s) :=
  ⟨setStatus_canceled_open hX, childOk_map_setStatus_canceled h2,
   setStatus_closedDone rfl h3, setStatus_ocoLeaves rfl h4,
   idsOk_of_sameIds (sameIds_setStatus oid .canceled s) h5⟩

theorem execMarketFill_inv (oid : Nat) (side : OrderSide) (qty : Nat) (s : ExchangeState)
    (hInv : ExchangeInv s)
    (hful : ∀ o, findOrder s oid = some o → o.quantity ≤ o.filledQty + qty) :
    ExchangeInv (execMarketFill oid side qty s) := by
  obtain ⟨h1, h2, h3, h4, h5⟩ := hInv
  have hX : OpenX oid s.orders := fun a ha _ hop => h1 a ha hop
  unfold execMarketFill
  split
  · exact setStatus_canceled_inv hX h2 h3 h4 h5
  · split
    · exact setStatus_canceled_inv
        (applyFill_openX s hX) (applyFill_childOk s h2) (applyFill_closedDone s h3)
        (applyFill_ocoLeaves s h4)
        (idsOk_of_sameIds (sameIds_applyFill oid _ _ s) h5)
    · next hnlt =>
      refine ⟨?_, applyFill_childOk s h2, applyFill_closedDone s h3,
        applyFill_ocoLeaves s h4,
        idsOk_of_sameIds (sameIds_applyFill oid _ _ s) h5⟩
      cases hfo : findOrder s oid with
      | none =>
        have he : applyFill oid (min qty (sideAvail side s)) (sidePx side s) s = s := by
          unfold applyFill
          rw [hfo]
        rw [he]
        exact h1
      | some o =>
        have hqeq : min qty (sideAvail side s) = qty := by omega
        have hq : o.quantity ≤ o.filledQty + min qty (sideAvail side s) := by
          rw [hqeq]
          exact hful o hfo
        have hAF : AllFilledAt oid
            (applyFill oid (min qty (sideAvail side s)) (sidePx side s) s).orders :=
          applyFill_allFilled h5.1 hfo hq
        intro o' ho' hop
        by_cases hid : o'.id = oid
        · rw [hAF o' ho' hid] at hop
          cases hop
        · exact applyFill_openX s hX o' ho' hid hop

theorem mem_singleton_order {a x : Order} (h : a ∈ [x]) : a = x := by
  simpa using h

theorem append_order_inv (s : ExchangeState) (x : Order) (hInv : ExchangeInv s)
    (hst : isOpenStatus x.status = false) (hpar : x.parentId = none)
    (hid : x.id = s.nextId) :
    ExchangeInv { s with orders := s.orders ++ [x], nextId := s.nextId + 1 } := by
  obtain ⟨h1, h2, h3, h4, h5⟩ := hInv
  refine ⟨?_, ?_, ?_, ?_, ?_⟩
  · intro o' ho' hop
    rcases List.mem_append.mp ho' with ho'' | ho''
    · exact h1 o' ho'' hop
    · rw [mem_singleton_order ho''] at hop
      rw [hst] at hop
      cases hop
  · intro o' ho' hp
    rcases List.mem_append.mp ho' with ho'' | ho''
    · exact h2 o' ho'' hp
    · rw [mem_singleton_order ho''] at hp
      rw [hpar] at hp
      cases hp
  · intro hcl o' ho' hp
    have hcl' : positionClosed s = true := hcl
    rcases List.mem_append.mp ho' with ho'' | ho''
    · exact h3 hcl' o' ho'' hp
    · rw [mem_singleton_order ho''] at hp ⊢
      rw [hpar] at hp
      cases hp
  · intro hop o' ho' hp hopn
    have hop' : positionOpen s = true := hop
    rcases List.mem_append.mp ho' with ho'' | ho''
    · exact h4 hop' o' ho'' hp hopn
    · rw [mem_singleton_order ho''] at hp
      rw [hpar] at hp
      cases hp
  · constructor
    · show ((s.orders ++ [x]).map (fun o => o.id)).Nodup
      rw [List.map_append, List.nodup_append]
      refine ⟨h5.1, List.nodup_singleton _, ?_⟩
      intro y hy hy2
      have hyx : y = x.id := by simpa using hy2
      rcases List.mem_map.mp hy with ⟨a, ha, hay⟩
      have := h5.2 a ha
      omega
    · intro o' ho'
      show o'.id < s.nextId + 1
      rcases List.mem_append.mp ho' with ho'' | ho''
      · have := h5.2 o' ho''
        omega
      · rw [mem_singleton_order ho'']
        omega

theorem findOrder_append_new {s : ExchangeState} {x : Order}
    (hbound : ∀ o ∈ s.orders, o.id < s.nextId) (hx : x.id = s.nextId) :
    findOrder { s with orders := s.orders ++ [x], nextId := s.nextId + 1 } s.nextId =
      some x := by
  unfold findOrder
  show (s.orders ++ [x]).find? (fun o => o.id == s.nextId) = some x
  rw [List.find?_append]
  have h1 : s.orders.find? (fun o => o.id == s.nextId) = none := by
    rw [List.find?_eq_none]
    intro a ha
    simp only [beq_iff_eq]
    exact Nat.ne_of_lt (hbound a ha)
  rw [h1]
  simp [List.find?, hx]

theorem submitMarketOrder_inv (side : OrderSide) (qty : Nat) (reduce : Bool)
    (s : ExchangeState) (hInv : ExchangeInv s) :
    ExchangeInv (submitMarketOrder side qty reduce s) := by
  unfold submitMarketOrder
  apply execMarketFill_inv
  · exact append_order_inv s _ hInv rfl rfl rfl
  · intro o hfo
    rw [findOrder_append_new hInv.2.2.2.2.2 rfl] at hfo
    cases hfo
    show qty ≤ 0 + qty
    omega

theorem closePosition_inv (s : ExchangeState) (h : ExchangeInv s) :
    ExchangeInv (closePosition s) := by
  unfold closePosition
  split
  · split
    · exact h
    · exact submitMarketOrder_inv _ _ _ s h
  · exact h

theorem closed_state_conclusions (s' : ExchangeState) (h : ExchangeInv s')
    (hcl : positionClosed s' = true) :
    (∀ o ∈ s'.orders, o.parentId.isSome = true →
      o.status = .canceled ∨ o.status = .filled) ∧
    getOpenOrders s' = [] ∧ openPositionCount s' = 0 := by
  obtain ⟨h1, h2, h3, _, _⟩ := h
  have hdone := h3 hcl
  refine ⟨?_, ?_, ?_⟩
  · intro o ho hp
    have hno := hdone o ho hp
    rcases h2 o ho hp with ha | hb | hc | hd
    · rw [ha] at hno
      cases hno
    · rw [hb] at hno
      cases hno
    · exact Or.inl hc
    · exact Or.inr hd
  · unfold getOpenOrders
    rw [List.filter_eq_nil_iff]
    intro o ho hop
    have hop' : isOpenStatus o.status = true := by simpa using hop
    have hpar := h1 o ho hop'
    have hfalse := hdone o ho hpar
    rw [hfalse] at hop'
    cases hop'
  · unfold openPositionCount
    unfold positionClosed at hcl
    split
    · next p hp =>
      rw [hp] at hcl
      simp only [beq_iff_eq] at hcl
      rw [if_pos hcl]
    · rfl

/-- C1: for a bracket in its post-entry-fill configuration (all working
orders are the bracket's OCO children, invariants of spec section 8),
whenever the linked position becomes fully closed in a processing step —
by a quote tick that fully fills one OCO child, or by an explicit
`close_position` — every bracket child ends the same step CANCELED (or
FILLED, for the child that filled), the exchange has zero open orders
and the cache has zero open positions. -/
theorem bracket_position_closed_cancels_all_ocos (s : ExchangeState) (t : QuoteTick)
    (h : ExchangeInv s) :
    (positionClosed (processQuoteTick t s) = true →
      (∀ o ∈ (processQuoteTick t s).orders, o.parentId.isSome = true →
        o.status = .canceled ∨ o.status = .filled) ∧
      getOpenOrders (processQuoteTick t s) = [] ∧
      openPositionCount (processQuoteTick t s) = 0) ∧
    (positionClosed (closePosition s) = true →
      (∀ o ∈ (closePosition s).orders, o.parentId.isSome = true →
        o.status = .canceled ∨ o.status = .filled) ∧
      getOpenOrders (closePosition s) = [] ∧
      openPositionCount (closePosition s) = 0) :=
  ⟨fun hcl => closed_state_conclusions _ (processQuoteTick_inv t s h) hcl,
   fun hcl => closed_state_conclusions _ (closePosition_inv s h) hcl⟩

instance (s : ExchangeState) : Decidable (OpenImpliesChild s) := by
  unfold OpenImpliesChild
  infer_instance

instance (s : ExchangeState) : Decidable (ChildStatusOk s) := by
  unfold ChildStatusOk ChildOkL
  infer_instance

instance (s : ExchangeState) : Decidable (ClosedChildrenDone s) := by
  unfold ClosedChildrenDone ChildrenDoneL
  infer_instance

instance (s : ExchangeState) : Decidable (OcoLeavesMatch s) := by
  unfold OcoLeavesMatch LeavesOkL
  infer_instance

instance (s : ExchangeState) : Decidable (IdsOk s) := by
  unfold IdsOk
  infer_instance

instance (s : ExchangeState) : Decidable (ExchangeInv s) := by
  unfold ExchangeInv
  infer_instance

/-- Witness for C1: the bracket of the contingency tests (LIMIT BUY
10.000 filled at 3090.5, SL 3050.0 and TP 3150.0 ACCEPTED) satisfies the
invariants, the full-size tick at 3150.0 closes the position through the
TP fill, and `close_position` closes it directly; the theorem applies
and its antecedents actually hold at this input. -/
theorem bracket_position_closed_cancels_all_ocos_witness :
    (ExchangeInv bracketLimitFilledState ∧
      positionClosed (processQuoteTick ethTick2Full bracketLimitFilledState) = true ∧
      positionClosed (closePosition bracketLimitFilledState) = true) ∧
    ((positionClosed (processQuoteTick ethTick2Full bracketLimitFilledState) = true →
      (∀ o ∈ (processQuoteTick ethTick2Full bracketLimitFilledState).orders,
        o.parentId.isSome = true → o.status = .canceled ∨ o.status = .filled) ∧
      getOpenOrders (processQuoteTick ethTick2Full bracketLimitFilledState) = [] ∧
      openPositionCount (processQuoteTick ethTick2Full bracketLimitFilledState) = 0) ∧
    (positionClosed (closePosition bracketLimitFilledState) = true →
      (∀ o ∈ (closePosition bracketLimitFilledState).orders,
        o.parentId.isSome = true → o.status = .canceled ∨ o.status = .filled) ∧
      getOpenOrders (closePosition bracketLimitFilledState) = [] ∧
      openPositionCount (closePosition bracketLimitFilledState) = 0)) :=
  ⟨⟨by decide, by decide, by decide⟩,
   bracket_position_closed_cancels_all_ocos bracketLimitFilledState ethTick2Full (by decide)⟩

/-- C2: scenario S1 — submitting a bracket MARKET BUY of 10.000 on
ETHUSD with SL 3050.0 / TP 3150.0 against bid 3090.2 / ask 3090.5 and
calling `process(0)` leaves the entry FILLED, both children ACCEPTED,
and the exchange's open orders are exactly the stop-loss (id 2) and the
take-profit (id 3). -/
theorem bracket_market_buy_fills_entry_accepts_children :
    orderStatusOf bracketMarketState 1 = some .filled ∧
    orderStatusOf bracketMarketState 2 = some .accepted ∧
    orderStatusOf bracketMarketState 3 = some .accepted ∧
    (getOpenOrders bracketMarketState).map (fun o => o.id) = [2, 3] := by
  decide

/-- C5: a bracket whose entry is a marketable POST_ONLY limit order is
rejected whole: the entry and both children are created REJECTED in the
same step, the open orders and the position of the venue are unchanged;
concretely, the post-only SELL bracket at 3050.0 inside the market ends
with all three orders REJECTED and no open orders. -/
theorem bracket_postonly_entry_rejected_with_children (side : OrderSide) (qty : Nat)
    (entryPx slT tpP : Int) (s : ExchangeState)
    (hmkt : marketableLimit s side entryPx = true) :
    ((submitBracketLimit side qty entryPx slT tpP true s).position = s.position ∧
      getOpenOrders (submitBracketLimit side qty entryPx slT tpP true s) =
        getOpenOrders s ∧
      (∀ o ∈ (submitBracketLimit side qty entryPx slT tpP true s).orders,
        o ∈ s.orders ∨ o.status = .rejected)) ∧
    (orderStatusOf rejectedBracketState 1 = some .rejected ∧
      orderStatusOf rejectedBracketState 2 = some .rejected ∧
      orderStatusOf rejectedBracketState 3 = some .rejected ∧
      getOpenOrders rejectedBracketState = []) := by
  have he : submitBracketLimit side qty entryPx slT tpP true s =
      { s with
        orders := s.orders ++
          [mkOrder s.nextId side .limit qty entryPx true false none [] .rejected,
           mkOrder (s.nextId + 1) side.opposite .stopMarket qty slT false true
             (some s.nextId) [s.nextId + 2] .rejected,
           mkOrder (s.nextId + 2) side.opposite .limit qty tpP false true
             (some s.nextId) [s.nextId + 1] .rejected]
        nextId := s.nextId + 3 } := by
    unfold submitBracketLimit
    rw [if_pos hmkt]
    rfl
  refine ⟨⟨?_, ?_, ?_⟩, by decide, by decide, by decide, by decide⟩
  · rw [he]
  · rw [he]
    unfold getOpenOrders
    show (s.orders ++ _).filter _ = _
    rw [List.filter_append]
    simp [mkOrder, isOpenStatus]
  · intro o ho
    rw [he] at ho
    rcases List.mem_append.mp ho with h1 | h1
    · exact Or.inl h1
    · right
      simp only [List.mem_cons, List.not_mem_nil, or_false] at h1
      rcases h1 with rfl | rfl | rfl <;> rfl

/-- C6: a bracket whose LIMIT entry is not marketable rests: the entry
is created ACCEPTED and both children are created SUBMITTED (held), the
venue's open orders gain exactly the entry; concretely both resting
test brackets (BUY at 3090.0 and SELL at 3100.0) have entry ACCEPTED,
children SUBMITTED, and only the entry among the open orders. -/
theorem bracket_limit_entry_rests_children_held (side : OrderSide) (qty : Nat)
    (entryPx slT tpP : Int) (post : Bool) (s : ExchangeState)
    (hmkt : marketableLimit s side entryPx = false) :
    ((submitBracketLimit side qty entryPx slT tpP post s).position = s.position ∧
      getOpenOrders (submitBracketLimit side qty entryPx slT tpP post s) =
        getOpenOrders s ++
          [mkOrder s.nextId side .limit qty entryPx post false none [] .accepted] ∧
      (∀ o ∈ (submitBracketLimit side qty entryPx slT tpP post s).orders,
        o.parentId = some s.nextId → o ∈ s.orders ∨ o.status = .submitted)) ∧
    (orderStatusOf pendingBracketBuyState 1 = some .accepted ∧
      orderStatusOf pendingBracketBuyState 2 = some .submitted ∧
      orderStatusOf pendingBracketBuyState 3 = some .submitted ∧
      orderStatusOf pendingBracketSellState 1 = some .accepted ∧
      orderStatusOf pendingBracketSellState 2 = some .submitted ∧
      orderStatusOf pendingBracketSellState 3 = some .submitted ∧
      (getOpenOrders pendingBracketBuyState).map (fun o => o.id) = [1] ∧
      (getOpenOrders pendingBracketSellState).map (fun o => o.id) = [1]) := by
  have he : submitBracketLimit side qty entryPx slT tpP post s =
      { s with
        orders := s.orders ++
          [mkOrder s.nextId side .limit qty entryPx post false none [] .accepted,
           mkOrder (s.nextId + 1) side.opposite .stopMarket qty slT false true
             (some s.nextId) [s.nextId + 2] .submitted,
           mkOrder (s.nextId + 2) side.opposite .limit qty tpP false true
             (some s.nextId) [s.nextId + 1] .submitted]
        nextId := s.nextId + 3 } := by
    unfold submitBracketLimit
    rw [if_neg (by rw [hmkt]; exact Bool.false_ne_true)]
  refine ⟨⟨?_, ?_, ?_⟩, by decide, by decide, by decide, by decide, by decide, by decide,
    by decide, by decide⟩
  · rw [he]
  · rw [he]
    unfold getOpenOrders
    show (s.orders ++ _).filter _ = _
    rw [List.filter_append]
    simp [mkOrder, isOpenStatus]
  · intro o ho hp
    rw [he] at ho
    rcases List.mem_append.mp ho with h1 | h1
    · exact Or.inl h1
    · simp only [List.mem_cons, List.not_mem_nil, or_false] at h1
      rcases h1 with rfl | rfl | rfl
      · simp [mkOrder] at hp
      · exact Or.inr rfl
      · exact Or.inr rfl

/-- Witness for C5 at the test inputs: post-only SELL bracket entry at
3050.0 against bid 3090.2 is marketable, and the theorem applies. -/
theorem bracket_postonly_entry_rejected_with_children_witness :
    marketableLimit ethMarketState .sell 30500 = true ∧
    (((submitBracketLimit .sell 10000 30500 31500 30000 true ethMarketState).position =
        ethMarketState.position ∧
      getOpenOrders (submitBracketLimit .sell 10000 30500 31500 30000 true ethMarketState) =
        getOpenOrders ethMarketState ∧
      (∀ o ∈ (submitBracketLimit .sell 10000 30500 31500 30000 true ethMarketState).orders,
        o ∈ ethMarketState.orders ∨ o.status = .rejected)) ∧
    (orderStatusOf rejectedBracketState 1 = some .rejected ∧
      orderStatusOf rejectedBracketState 2 = some .rejected ∧
      orderStatusOf rejectedBracketState 3 = some .rejected ∧
      getOpenOrders rejectedBracketState = [])) :=
  ⟨by decide,
   bracket_postonly_entry_rejected_with_children .sell 10000 30500 31500 30000
     ethMarketState (by decide)⟩

/-- Witness for C6 at the test inputs: BUY limit entry at 3090.0 against
ask 3090.5 is not marketable, and the theorem applies. -/
theorem bracket_limit_entry_rests_children_held_witness :
    marketableLimit ethMarketState .buy 30900 = false ∧
    (((submitBracketLimit .buy 10000 30900 30500 31500 false ethMarketState).position =
        ethMarketState.position ∧
      getOpenOrders (submitBracketLimit .buy 10000 30900 30500 31500 false ethMarketState) =
        getOpenOrders ethMarketState ++
          [mkOrder ethMarketState.nextId .buy .limit 10000 30900 false false none []
            .accepted] ∧
      (∀ o ∈ (submitBracketLimit .buy 10000 30900 30500 31500 false ethMarketState).orders,
        o.parentId = some ethMarketState.nextId →
          o ∈ ethMarketState.orders ∨ o.status = .submitted)) ∧
    (orderStatusOf pendingBracketBuyState 1 = some .accepted ∧
      orderStatusOf pendingBracketBuyState 2 = some .submitted ∧
      orderStatusOf pendingBracketBuyState 3 = some .submitted ∧
      orderStatusOf pendingBracketSellState 1 = some .accepted ∧
      orderStatusOf pendingBracketSellState 2 = some .submitted ∧
      orderStatusOf pendingBracketSellState 3 = some .submitted ∧
      (getOpenOrders pendingBracketBuyState).map (fun o => o.id) = [1] ∧
      (getOpenOrders pendingBracketSellState).map (fun o => o.id) = [1])) :=
  ⟨by decide,
   bracket_limit_entry_rests_children_held .buy 10000 30900 30500 31500 false
     ethMarketState (by decide)⟩

theorem rewriteQty_id (oid : Nat) (L : List Nat) (q : Nat) (a : Order) :
    (rewriteQty oid L q a).id = a.id := by
  unfold rewriteQty
  split <;> rfl

theorem rewriteQty_status (oid : Nat) (L : List Nat) (q : Nat) (a : Order) :
    (rewriteQty oid L q a).status = a.status := by
  unfold rewriteQty
  split <;> rfl

theorem rewriteQty_price (oid : Nat) (L : List Nat) (q : Nat) (a : Order) :
    (rewriteQty oid L q a).price = a.price := by
  unfold rewriteQty
  split <;> rfl

theorem map_proj_eq {β : Type} (l : List Order) (f : Order → Order) (g : Order → β)
    (hf : ∀ a, g (f a) = g a) : (l.map f).map g = l.map g := by
  rw [List.map_map]
  exact List.map_congr_left (fun a _ => hf a)

/-- C4: a user modification of the quantity of one OCO child rewrites
the target's and every OCO peer's quantity to the new value, while every
order's status and (trigger) price and the venue position are unchanged;
concretely, modifying the SL of the filled test bracket from 10.000 to
5.000 leaves SL and TP both at 5.000, both ACCEPTED, two open orders and
the position still open. -/
theorem modify_oco_child_rewrites_peer (oid q : Nat) (s : ExchangeState) (o0 : Order)
    (hfo : findOrder s oid = some o0) :
    ((modifyOrder oid q s).position = s.position ∧
      (modifyOrder oid q s).orders.map (fun o => o.status) =
        s.orders.map (fun o => o.status) ∧
      (modifyOrder oid q s).orders.map (fun o => o.price) =
        s.orders.map (fun o => o.price) ∧
      (∀ o ∈ (modifyOrder oid q s).orders,
        o.id = oid ∨ o.id ∈ o0.linkedIds → o.quantity = q)) ∧
    (orderQuantityOf modifiedBracketState 2 = some 5000 ∧
      orderQuantityOf modifiedBracketState 3 = some 5000 ∧
      orderStatusOf modifiedBracketState 2 = some .accepted ∧
      orderStatusOf modifiedBracketState 3 = some .accepted ∧
      (getOpenOrders modifiedBracketState).length = 2 ∧
      openPositionCount modifiedBracketState = 1) := by
  have he : modifyOrder oid q s =
      { s with orders := s.orders.map (rewriteQty oid o0.linkedIds q) } := by
    unfold modifyOrder
    rw [hfo]
  refine ⟨⟨?_, ?_, ?_, ?_⟩, by decide, by decide, by decide, by decide, by decide,
    by decide⟩
  · rw [he]
  · rw [he]
    exact map_proj_eq _ _ _ (rewriteQty_status oid o0.linkedIds q)
  · rw [he]
    exact map_proj_eq _ _ _ (rewriteQty_price oid o0.linkedIds q)
  · intro o ho hcond
    rw [he] at ho
    rcases List.mem_map.mp ho with ⟨a, _, rfl⟩
    have hcond' : (a.id == oid || o0.linkedIds.contains a.id) = true := by
      rcases hcond with h1 | h1
      · rw [rewriteQty_id] at h1
        simp [h1]
      · rw [rewriteQty_id] at h1
        simp only [Bool.or_eq_true]
        right
        simpa using h1
    unfold rewriteQty
    rw [if_pos hcond']

/-- Witness for C4 at the test input: the SL (id 2, linked to the TP
id 3) of the filled test bracket is found, and the theorem applies with
the new quantity 5.000. -/
theorem modify_oco_child_rewrites_peer_witness :
    findOrder bracketMarketState 2 ≠ none ∧
    (((modifyOrder 2 5000 bracketMarketState).position = bracketMarketState.position ∧
      (modifyOrder 2 5000 bracketMarketState).orders.map (fun o => o.status) =
        bracketMarketState.orders.map (fun o => o.status) ∧
      (modifyOrder 2 5000 bracketMarketState).orders.map (fun o => o.price) =
        bracketMarketState.orders.map (fun o => o.price) ∧
      (∀ o ∈ (modifyOrder 2 5000 bracketMarketState).orders,
        o.id = 2 ∨ o.id ∈ [3] → o.quantity = 5000)) ∧
    (orderQuantityOf modifiedBracketState 2 = some 5000 ∧
      orderQuantityOf modifiedBracketState 3 = some 5000 ∧
      orderStatusOf modifiedBracketState 2 = some .accepted ∧
      orderStatusOf modifiedBracketState 3 = some .accepted ∧
      (getOpenOrders modifiedBracketState).length = 2 ∧
      openPositionCount modifiedBracketState = 1)) :=
  ⟨by decide,
   modify_oco_child_rewrites_peer 2 5000 bracketMarketState
     (mkOrder 2 .sell .stopMarket 10000 30500 false true (some 1) [3] .accepted)
     (by decide)⟩

/-- Counterexample to C3 as stated: after the 5.000 partial fill of the
take profit, the position's open quantity is 5.000, yet the TP — an OCO
peer of the pair — does not have its quantity rewritten to 5.000 (it
keeps 10.000) and its status does not stay unchanged (it was ACCEPTED
and is now PARTIALLY_FILLED). -/
theorem partial_reduce_claim_counterexample :
    openQtyNat tpPartialState = 5000 ∧
    orderStatusOf bracketLimitFilledState 3 = some .accepted ∧
    ¬ (orderQuantityOf tpPartialState 3 = some 5000 ∧
       orderStatusOf tpPartialState 3 = some .accepted) ∧
    orderQuantityOf tpPartialState 3 = some 10000 ∧
    orderStatusOf tpPartialState 3 = some .partFilled := by
  decide

/-- C3 (amended): whenever the position linked to OCO children is
partially reduced — by a tick-driven child fill or by a separate reduce
order — every OCO child still working is resized so that its LEAVES
quantity equals the position's new open quantity (a child with no fills
gets its quantity rewritten to the open quantity; a partially filled
child keeps its total quantity); the untouched peer's status and trigger
price and the position's average entry price are unchanged. -/
theorem partial_reduce_rewrites_oco_leaves (s : ExchangeState) (t : QuoteTick)
    (side : OrderSide) (qty : Nat) (red : Bool) (h : ExchangeInv s) :
    (OcoLeavesMatch (processQuoteTick t s) ∧
      OcoLeavesMatch (submitMarketOrder side qty red s)) ∧
    (orderQuantityOf tpPartialState 2 = some 5000 ∧
      orderLeavesOf tpPartialState 2 = some 5000 ∧
      orderStatusOf tpPartialState 2 = some .accepted ∧
      orderPriceOf tpPartialState 2 = some 30500 ∧
      orderLeavesOf tpPartialState 3 = some 5000 ∧
      orderQuantityOf tpPartialState 3 = some 10000 ∧
      avgEntryOf tpPartialState = some (309050000, 10000) ∧
      avgEntryOf bracketLimitFilledState = some (309050000, 10000) ∧
      openPositionCount tpPartialState = 1 ∧
      orderQuantityOf reducedBracketState 2 = some 5000 ∧
      orderQuantityOf reducedBracketState 3 = some 5000 ∧
      orderStatusOf reducedBracketState 2 = some .accepted ∧
      orderStatusOf reducedBracketState 3 = some .accepted ∧
      avgEntryOf reducedBracketState = some (309050000, 10000) ∧
      openPositionCount reducedBracketState = 1) :=
  ⟨⟨(processQuoteTick_inv t s h).2.2.2.1, (submitMarketOrder_inv side qty red s h).2.2.2.1⟩,
   by decide, by decide, by decide, by decide, by decide, by decide, by decide, by decide,
   by decide, by decide, by decide, by decide, by decide, by decide, by decide⟩

/-- Witness for the amended C3 at the test inputs: the invariants hold
for the filled test bracket and the theorem applies to the 5.000-size
tick and to the reduce MARKET SELL of 5.000. -/
theorem partial_reduce_rewrites_oco_leaves_witness :
    ExchangeInv bracketLimitFilledState ∧
    ((OcoLeavesMatch (processQuoteTick ethTick2Partial bracketLimitFilledState) ∧
      OcoLeavesMatch (submitMarketOrder .sell 5000 true bracketLimitFilledState)) ∧
    (orderQuantityOf tpPartialState 2 = some 5000 ∧
      orderLeavesOf tpPartialState 2 = some 5000 ∧
      orderStatusOf tpPartialState 2 = some .accepted ∧
      orderPriceOf tpPartialState 2 = some 30500 ∧
      orderLeavesOf tpPartialState 3 = some 5000 ∧
      orderQuantityOf tpPartialState 3 = some 10000 ∧
      avgEntryOf tpPartialState = some (309050000, 10000) ∧
      avgEntryOf bracketLimitFilledState = some (309050000, 10000) ∧
      openPositionCount tpPartialState = 1 ∧
      orderQuantityOf reducedBracketState 2 = some 5000 ∧
      orderQuantityOf reducedBracketState 3 = some 5000 ∧
      orderStatusOf reducedBracketState 2 = some .accepted ∧
      orderStatusOf reducedBracketState 3 = some .accepted ∧
      avgEntryOf reducedBracketState = some (309050000, 10000) ∧
      openPositionCount reducedBracketState = 1)) :=
  ⟨by decide,
   partial_reduce_rewrites_oco_leaves bracketLimitFilledState ethTick2Partial .sell 5000
     true (by decide)⟩

/-! ## Strategy command gate (C7, C10) -/

/-- PENDING_* statuses of the order state machine (spec section 4.6). -/
def statusIsPending : OrderStatus → Bool
  | .pendingUpdate => true
  | .pendingCancel => true
  | _ => false

/-- Terminal statuses of the order state machine (spec section 4.6). -/
def statusIsTerminal : OrderStatus → Bool
  | .denied => true
  | .rejected => true
  | .expired => true
  | .canceled => true
  | .filled => true
  | _ => false

/-- The strategy-side view used by the command gate: the execution
engine's command counter and the targeted order as seen in the cache. -/
structure StrategyExecView where
  commandCount : Nat
  order : Order
deriving DecidableEq, Repr

/-- Modelled from the spec: `Strategy.cancel_order` — a cancel issued in
a PENDING_* or terminal state is a no-op that logs; otherwise the
command is forwarded (counter advances) and the order goes
PENDING_CANCEL. -/
def strategyCancelOrder (v : StrategyExecView) : StrategyExecView :=
  if statusIsPending v.order.status || statusIsTerminal v.order.status then v
  else
    { commandCount := v.commandCount + 1
      order := { v.order with status := .pendingCancel } }

/-- Modelled from the spec: `Strategy.modify_order` — a modify issued in
a PENDING_* or terminal state is a no-op that logs; otherwise the
command is forwarded and the order goes PENDING_UPDATE (its fields are
rewritten only when the venue confirms). -/
def strategyModifyOrder (v : StrategyExecView) (_q : Nat) (_px : Int) : StrategyExecView :=
  if statusIsPending v.order.status || statusIsTerminal v.order.status then v
  else
    { commandCount := v.commandCount + 1
      order := { v.order with status := .pendingUpdate } }

/-- C7: a modify or cancel issued for an order in a PENDING_UPDATE,
PENDING_CANCEL or terminal status is a no-op: the execution engine's
command count and the order's status and fields are all unchanged. -/
theorem modify_cancel_pending_or_terminal_noop (v : StrategyExecView) (q : Nat) (px : Int)
    (h : statusIsPending v.order.status = true ∨ statusIsTerminal v.order.status = true) :
    strategyCancelOrder v = v ∧ strategyModifyOrder v q px = v := by
  have hc : (statusIsPending v.order.status || statusIsTerminal v.order.status) = true := by
    rcases h with h | h <;> simp [h]
  constructor
  · unfold strategyCancelOrder
    rw [if_pos hc]
  · unfold strategyModifyOrder
    rw [if_pos hc]

/-- The test's stop-market order after its cancel went PENDING_CANCEL;
one submit command has been forwarded so far. -/
def pendingCancelView : StrategyExecView :=
  { commandCount := 1
    order := mkOrder 1 .buy .stopMarket 100000 90006 false false none [] .pendingCancel }

/-- The test's limit order after it EXPIRED (terminal); one submit
command has been forwarded so far. -/
def expiredView : StrategyExecView :=
  { commandCount := 1
    order := mkOrder 1 .buy .limit 100000 90001 false false none [] .expired }

/-- Witness for C7 at the test inputs: a PENDING_CANCEL order and an
EXPIRED order; both cancel and modify are no-ops and the command count
stays at 1. -/
theorem modify_cancel_pending_or_terminal_noop_witness :
    (statusIsPending pendingCancelView.order.status = true ∧
      statusIsTerminal expiredView.order.status = true) ∧
    (strategyCancelOrder pendingCancelView = pendingCancelView ∧
      strategyModifyOrder pendingCancelView 100000 90000 = pendingCancelView) ∧
    (strategyCancelOrder expiredView = expiredView ∧
      strategyModifyOrder expiredView 100000 90000 = expiredView) :=
  ⟨⟨by decide, by decide⟩,
   modify_cancel_pending_or_terminal_noop pendingCancelView 100000 90000
     (Or.inl (by decide)),
   modify_cancel_pending_or_terminal_noop expiredView 100000 90000
     (Or.inr (by decide))⟩

/-- The USDJPY-like quote used by the flat-position scenario. -/
def simTickBig : QuoteTick :=
  { bid := 90002, ask := 90005, bidSize := 1000000, askSize := 1000000 }

/-- The already-closed (FLAT) position scenario of the strategy tests:
a MARKET BUY of 100000 immediately netted out by a MARKET SELL of
100000. -/
def flatState : ExchangeState :=
  submitMarketOrder .sell 100000 false
    (submitMarketOrder .buy 100000 false (processQuoteTick simTickBig emptyExchange))

/-- C10: calling `close_position` on a position that is already closed
(FLAT) is a no-op: the state is unchanged, so no new order is submitted
and the portfolio remains completely flat; concretely for the
buy-then-sell scenario of the test. -/
theorem close_position_already_closed_noop (s : ExchangeState)
    (h : positionClosed s = true) :
    closePosition s = s ∧
    (positionClosed flatState = true ∧
      closePosition flatState = flatState ∧
      isCompletelyFlat flatState = true ∧
      isCompletelyFlat (closePosition flatState) = true) := by
  refine ⟨?_, by decide, by decide, by decide, by decide⟩
  unfold closePosition
  split
  · next p hp =>
    rw [positionClosed_eq hp] at h
    simp only [beq_iff_eq] at h
    rw [if_pos h]
  · rfl

/-- Witness for C10 at the test scenario: the netted-out position is
closed and the theorem applies. -/
theorem close_position_already_closed_noop_witness :
    positionClosed flatState = true ∧
    (closePosition flatState = flatState ∧
      (positionClosed flatState = true ∧
        closePosition flatState = flatState ∧
        isCompletelyFlat flatState = true ∧
        isCompletelyFlat (closePosition flatState) = true)) :=
  ⟨by decide, close_position_already_closed_noop flatState (by decide)⟩

/-! ## Live risk engine bounded queue (C8) -/

/-- A message consumed by the live risk engine's queue: a command (by
sequence number) or an event. -/
inductive RiskMessage where
  | command : Nat → RiskMessage
  | event : Nat → RiskMessage
deriving DecidableEq, Repr

/-- Modelled from the spec: the `LiveRiskEngine` runs on its own
bounded in-memory queue with a configurable maximum (`qsize`); the
command/event counters advance only when the consumer task processes a
message. -/
structure LiveRiskEngineState where
  qsizeMax : Nat
  queue : List RiskMessage
  blockedPut : List RiskMessage
  commandCount : Nat
  eventCount : Nat
  isRunning : Bool
deriving DecidableEq, Repr

/-- Modelled from the spec: enqueuing past capacity blocks the producer
and drops nothing — a message that does not fit stays with its blocked
producer (`blockedPut`) awaiting capacity; it is never discarded. -/
def LiveRiskEngineState.putMessage (e : LiveRiskEngineState) (m : RiskMessage) :
    LiveRiskEngineState :=
  if e.queue.length < e.qsizeMax then { e with queue := e.queue ++ [m] }
  else { e with blockedPut := e.blockedPut ++ [m] }

/-- Modelled from the spec: `execute` enqueues a command message. -/
def LiveRiskEngineState.execute (e : LiveRiskEngineState) (c : Nat) :
    LiveRiskEngineState :=
  e.putMessage (.command c)

/-- Modelled from the spec: `process` enqueues an event message. -/
def LiveRiskEngineState.processEvent (e : LiveRiskEngineState) (ev : Nat) :
    LiveRiskEngineState :=
  e.putMessage (.event ev)

/-- The engine's current queue size. -/
def LiveRiskEngineState.qsize (e : LiveRiskEngineState) : Nat := e.queue.length

/-- A fresh engine with the given queue capacity; the consumer task is
not running, exactly as in the tests. -/
def freshRiskEngine (cap : Nat) : LiveRiskEngineState :=
  { qsizeMax := cap, queue := [], blockedPut := [], commandCount := 0, eventCount := 0
    isRunning := false }

/-- C8: with `qsize = 1` and no running consumer, a second `execute`
(or a `process` after an `execute`) past capacity blocks the producer
instead of dropping: the queue size stays 1, the processed command and
event counts stay 0, and both submitted messages are retained (queued or
held by the blocked producer). -/
theorem live_risk_qsize_at_max_blocks :
    (((freshRiskEngine 1).execute 10).execute 11).qsize = 1 ∧
    (((freshRiskEngine 1).execute 10).execute 11).commandCount = 0 ∧
    (((freshRiskEngine 1).execute 10).execute 11).queue ++
        (((freshRiskEngine 1).execute 10).execute 11).blockedPut =
      [.command 10, .command 11] ∧
    (((freshRiskEngine 1).execute 10).processEvent 20).qsize = 1 ∧
    (((freshRiskEngine 1).execute 10).processEvent 20).eventCount = 0 ∧
    (((freshRiskEngine 1).execute 10).processEvent 20).queue ++
        (((freshRiskEngine 1).execute 10).processEvent 20).blockedPut =
      [.command 10, .event 20] := by
  decide

/-! ## Strategy save/load user-error propagation (C9) -/

/-- The opaque per-strategy state blob: keyed byte entries (spec
section 6: an opaque byte map the kernel stores but does not parse). -/
abbrev StateBlob := List (String × List Nat)

/-- Modelled from the spec: `Strategy.save` runs the user `on_save`
hook; a UserCodeError raised inside it is logged with traceback and then
RE-RAISED to the host (the error is returned to the caller alongside the
log record). -/
def strategySave (onSave : Unit → Except String StateBlob) :
    Except String StateBlob × List String :=
  match onSave () with
  | .ok st => (.ok st, [])
  | .error e => (.error e, ["UserCodeError: " ++ e])

/-- Modelled from the spec: `Strategy.load` runs the user `on_load` hook
on the stored blob; a UserCodeError is logged and re-raised. -/
def strategyLoad (onLoad : StateBlob → Except String Unit) (st : StateBlob) :
    Except String Unit × List String :=
  match onLoad st with
  | .ok _ => (.ok (), [])
  | .error e => (.error e, ["UserCodeError: " ++ e])

/-- Modelled from the spec: the tick hooks suppress user errors so the
event loop survives — the handler always returns normally, only
logging. -/
def strategyHandleQuoteTick (onTick : Int → Except String Unit) (px : Int) :
    List String :=
  match onTick px with
  | .ok _ => []
  | .error e => ["UserCodeError: " ++ e]

/-- C9: if user code raises inside `on_save` or `on_load`, the
strategy's `save`/`load` log the error and re-raise it to the caller;
in contrast a tick hook that raises is suppressed — the handler returns
normally with only a log record. -/
theorem save_load_user_error_logged_and_reraised
    (f : Unit → Except String StateBlob) (g : StateBlob → Except String Unit)
    (onTick : Int → Except String Unit) (st : StateBlob) (px : Int) (e e2 e3 : String)
    (hf : f () = .error e) (hg : g st = .error e2) (ht : onTick px = .error e3) :
    strategySave f = (.error e, ["UserCodeError: " ++ e]) ∧
    strategyLoad g st = (.error e2, ["UserCodeError: " ++ e2]) ∧
    strategyHandleQuoteTick onTick px = ["UserCodeError: " ++ e3] := by
  unfold strategySave strategyLoad strategyHandleQuoteTick
  rw [hf, hg, ht]
  exact ⟨rfl, rfl, rfl⟩

/-- The KaboomStrategy hooks of the tests: every hook raises. -/
def kaboomSave : Unit → Except String StateBlob := fun _ => .error "kaboom"

/-- The raising `on_load` hook. -/
def kaboomLoad : StateBlob → Except String Unit := fun _ => .error "kaboom"

/-- The raising quote tick hook. -/
def kaboomTick : Int → Except String Unit := fun _ => .error "kaboom"

/-- Witness for C9 with the kaboom hooks of the tests: `save` and `load`
re-raise the error after logging it, while the tick handler suppresses
it. -/
theorem save_load_user_error_logged_and_reraised_witness :
    kaboomSave () = .error "kaboom" ∧
    (strategySave kaboomSave = (.error "kaboom", ["UserCodeError: " ++ "kaboom"]) ∧
      strategyLoad kaboomLoad [("something", [1, 2])] =
        (.error "kaboom", ["UserCodeError: " ++ "kaboom"]) ∧
      strategyHandleQuoteTick kaboomTick 0 = ["UserCodeError: " ++ "kaboom"]) :=
  ⟨rfl,
   save_load_user_error_logged_and_reraised kaboomSave kaboomLoad kaboomTick
     [("something", [1, 2])] 0 "kaboom" "kaboom" "kaboom" rfl rfl rfl⟩
